import Mathlib

/-
Verification of the BarSignal catalog validator (scripts/validate-catalog.ts).

The TypeScript function `validateCatalog` reads `drinks.json` (and an optional
`flags.json`), applies per-entry structural checks to the parsed JSON array of
drink records, and returns a record with a `success` flag and lists of error
and warning messages.  The environment variable VALIDATE_IMAGE_FILES gates an
optional filesystem existence check.

This file gives a shallow embedding of that function over a model of parsed
JSON values (`JVal`) and of the JavaScript primitives the script uses
(truthiness, `typeof`, property access, `Object.keys`/`Object.entries`,
string coercion in template literals, `path.basename`/`path.extname`), and
proves properties of the embedding.

Modelling conventions:
- JSON numbers are modelled as rationals.  All numeric literals appearing in
  the checks (0, 100) are exact, so the [0,100] range test agrees with the
  IEEE-double behaviour of the script on every JSON document whose numbers
  are exactly representable; no claim here depends on double rounding.
- File contents are presented already parsed: the `catalog`/`flags` fields of
  `Env` are `none` when the file is absent, `some (Except.error m)` when
  JSON.parse throws with message `m`, and `some (Except.ok v)` when it parses
  to the value `v`.
- `fs.existsSync(path.join(__dirname, '..', p))` is modelled by the oracle
  `existsAt p` indexed by the repository-relative path `p`.
- Exceptions that escape `validateCatalog` (the script can throw a TypeError
  from `path.extname`/`path.basename`/`path.join` on non-string arguments and
  from a property read on `null`) are modelled by `Except.error`; the exact
  Node message text is abbreviated since only the fact of the throw matters.
- `String.prototype.trim` is modelled on the ASCII whitespace characters
  (plus \x0b, \x0c); exotic Unicode whitespace is not modelled, and no claim
  exercises it.  Likewise JS number-to-string formatting is exact for
  integers and approximated for non-integral rationals, which can only occur
  inside message text for documents whose `id` field is a non-integral
  number.
-/

/-- Model of a parsed JSON value (the result of a successful JSON.parse). -/
inductive JVal where
  | null
  | bool (b : Bool)
  | num (q : Rat)
  | str (s : String)
  | arr (elems : List JVal)
  | obj (fields : List (String × JVal))

/-- Test for the JSON null value. -/
def JVal.isNull : JVal → Bool
  | .null => true
  | _ => false

/-- JavaScript `typeof` on a parsed JSON value (`typeof null` is "object"). -/
def jsTypeof : JVal → String
  | .null => "object"
  | .bool _ => "boolean"
  | .num _ => "number"
  | .str _ => "string"
  | .arr _ => "object"
  | .obj _ => "object"

/-- JavaScript truthiness of a parsed JSON value (neither NaN nor -0 can
result from JSON.parse, so the number case is just a comparison with 0). -/
def truthy : JVal → Bool
  | .null => false
  | .bool b => b
  | .num q => !(q == 0)
  | .str s => !(s == "")
  | .arr _ => true
  | .obj _ => true

/-- Truthiness of a possibly-undefined value (`none` models `undefined`). -/
def truthyO : Option JVal → Bool
  | none => false
  | some v => truthy v

/-- JavaScript `typeof` of a possibly-undefined value. -/
def jsTypeofO : Option JVal → String
  | none => "undefined"
  | some v => jsTypeof v

/-- Decimal digit character (for d < 10). -/
def digitChar (d : Nat) : Char := Char.ofNat (48 + d)

/-- Fuel-driven decimal digit list; `natDigs` supplies enough fuel. -/
def natDigsAux : Nat → Nat → List Char
  | 0, _ => []
  | fuel+1, n => if n < 10 then [digitChar n] else natDigsAux fuel (n / 10) ++ [digitChar (n % 10)]

/-- Decimal digits of a natural number, most significant first. -/
def natDigs (n : Nat) : List Char := natDigsAux (n + 1) n

/-- Decimal string of a natural number (JS number-to-string on array indices
and on `${index}` interpolation of a loop counter). -/
def natStr (n : Nat) : String := String.mk (natDigs n)

/-- Numeric value of a digit list (reference inverse of `natDigs`). -/
def digsVal (cs : List Char) : Nat := cs.foldl (fun a c => a * 10 + (c.toNat - 48)) 0

/-- Decimal string of an integer. -/
def intStr (i : Int) : String := if i < 0 then "-" ++ natStr i.natAbs else natStr i.natAbs

/-- JS number-to-string, exact on integers.  Non-integral rationals are
printed as num/den, which differs from JS float formatting; this only
affects message text for catalogs whose `id` is a non-integral number. -/
def ratStr (q : Rat) : String := if q.den == 1 then intStr q.num else intStr q.num ++ "/" ++ natStr q.den

mutual

/-- JavaScript ToString of a parsed JSON value, as used by template literals:
strings unchanged, `[object Object]` for objects, arrays joined by commas
with null elements printed as the empty string. -/
def jsToString : JVal → String
  | .null => "null"
  | .bool b => cond b "true" "false"
  | .num q => ratStr q
  | .str s => s
  | .obj _ => "[object Object]"
  | .arr xs => jsArrStr xs

/-- Array join (JS `Array.prototype.toString`). -/
def jsArrStr : List JVal → String
  | [] => ""
  | [x] => jsItemStr x
  | x :: xs => jsItemStr x ++ "," ++ jsArrStr xs

/-- One array element inside a join: null prints as empty. -/
def jsItemStr : JVal → String
  | .null => ""
  | .bool b => cond b "true" "false"
  | .num q => ratStr q
  | .str s => s
  | .obj _ => "[object Object]"
  | .arr xs => jsArrStr xs

end

/-- ToString of a possibly-undefined value. -/
def jsToStringO : Option JVal → String
  | none => "undefined"
  | some v => jsToString v

/-- Digit test used for array-index keys. -/
def charDigit? (c : Char) : Option Nat :=
  if '0' ≤ c && c ≤ '9' then some (c.toNat - 48) else none

/-- Accumulating decimal parse of a character list. -/
def strToNatAux : List Char → Nat → Option Nat
  | [], acc => some acc
  | c :: cs, acc =>
    match charDigit? c with
    | some d => strToNatAux cs (acc * 10 + d)
    | none => none

/-- Decimal parse of a string (none on the empty string or any non-digit). -/
def strToNat? (s : String) : Option Nat :=
  match s.data with
  | [] => none
  | _ => strToNatAux s.data 0

/-- JavaScript array-index property name: the canonical decimal form of an
integer below 2^32 - 1. -/
def isArrayIndexKey (s : String) : Bool :=
  match strToNat? s with
  | some n => natStr n == s && decide (n < 4294967295)
  | none => false

/-- Property access `v[k]`: first matching field of an object, element lookup
for a canonical index key on an array, `undefined` otherwise.  (The inherited
properties of arrays and strings, such as `length`, are not modelled; no call
site of the script reads them.) -/
def jsGet : JVal → String → Option JVal
  | .obj fs, k => (fs.find? (fun p => p.1 == k)).map (fun p => p.2)
  | .arr xs, k =>
    match strToNat? k with
    | some n => if natStr n == k && decide (n < 4294967295) then xs.get? n else none
    | none => none
  | _, _ => none

/-- First-occurrence de-duplication of key lists (JSON.parse keeps the
position of the first occurrence of a repeated key). -/
def dedupKeysAux : List String → List String → List String
  | _, [] => []
  | seen, k :: ks => if seen.contains k then dedupKeysAux seen ks else k :: dedupKeysAux (k :: seen) ks

/-- Numeric value of a key, for ordering array-index keys. -/
def keyNatVal (k : String) : Nat := (strToNat? k).getD 0

/-- Insertion into a list of array-index keys sorted by numeric value. -/
def insertByVal (k : String) : List String → List String
  | [] => [k]
  | x :: xs => if keyNatVal k ≤ keyNatVal x then k :: x :: xs else x :: insertByVal k xs

/-- Sort array-index keys ascending by numeric value. -/
def sortByVal (ks : List String) : List String := ks.foldr insertByVal []

/-- JavaScript own-property key order: array-index keys ascending first, then
the remaining string keys in insertion order. -/
def jsOwnKeys (fs : List (String × JVal)) : List String :=
  let ks := dedupKeysAux [] (fs.map Prod.fst)
  sortByVal (ks.filter isArrayIndexKey) ++ ks.filter (fun k => !isArrayIndexKey k)

/-- `Object.keys` on a parsed JSON value. -/
def jsKeys : JVal → List String
  | .obj fs => jsOwnKeys fs
  | .arr xs => (List.range xs.length).map natStr
  | .str s => (List.range s.data.length).map natStr
  | _ => []

/-- `Object.entries` on a parsed JSON value (strings enumerate their
characters, matching the wrapped String object). -/
def jsEntries : JVal → List (String × JVal)
  | .obj fs => (jsOwnKeys fs).map (fun k => (k, ((fs.find? (fun p => p.1 == k)).map (fun p => p.2)).getD JVal.null))
  | .arr xs => (List.range xs.length).map (fun i => (natStr i, xs.getD i JVal.null))
  | .str s => (List.range s.data.length).map (fun i => (natStr i, JVal.str (String.singleton (s.data.getD i ' '))))
  | _ => []

/-- The `in` operator on the object/array values the flags check can reach
(the prototype chain is not modelled; the two keys the script consults are
not inherited properties). -/
def jsHasKey : JVal → String → Bool
  | .obj fs, k => fs.any (fun p => p.1 == k)
  | .arr xs, k =>
    (match strToNat? k with
     | some n => natStr n == k && decide (n < xs.length)
     | none => false) || k == "length"
  | _, _ => false

/-- JavaScript whitespace test restricted to the ASCII range. -/
def isJsSpace (c : Char) : Bool :=
  c == ' ' || c == '\t' || c == '\n' || c == '\r' || c == '\x0b' || c == '\x0c'

/-- Model of `String.prototype.trim`. -/
def jsTrim (s : String) : String :=
  String.mk (((s.data.dropWhile isJsSpace).reverse.dropWhile isJsSpace).reverse)

/-- Model of `String.prototype.startsWith` with a literal argument. -/
def jsStartsWith (s p : String) : Bool := p.data.isPrefixOf s.data

/-- Test of the regex /^[a-z0-9_]+$/ (the snake_case id format). -/
def isSnakeCase (s : String) : Bool :=
  !(s == "") && s.data.all (fun c => ('a' ≤ c && c ≤ 'z') || ('0' ≤ c && c ≤ '9') || c == '_')

/-- Test of the regex /\.(png)$/i. -/
def endsWithPngCI (s : String) : Bool :=
  match s.data.reverse with
  | g :: n :: p :: dot :: _ =>
    (g == 'g' || g == 'G') && (n == 'n' || n == 'N') && (p == 'p' || p == 'P') && dot == '.'
  | _ => false

/-- Last path component (Node `path.posix`, trailing slashes ignored). -/
def lastComponent (p : String) : String :=
  String.mk (((p.data.reverse.dropWhile (fun c => c == '/')).takeWhile (fun c => !(c == '/'))).reverse)

/-- Index of the last dot of a character list. -/
def lastDotIdx (b : List Char) : Option Nat :=
  match b.reverse.findIdx? (fun c => c == '.') with
  | some j => some (b.length - 1 - j)
  | none => none

/-- Model of Node `path.extname` on a string argument: extension of the last
component including the dot; empty when there is no dot, when the only dot
leads the component, or for the component "..". -/
def extnameOf (p : String) : String :=
  let b := (lastComponent p).data
  if b == ['.', '.'] then ""
  else
    match lastDotIdx b with
    | none => ""
    | some 0 => ""
    | some i => String.mk (b.drop i)

/-- Model of Node `path.basename(p, ext)` on string arguments: the last
component, with `ext` removed when it is a proper suffix. -/
def basenameSuffix (p ext : String) : String :=
  let b := lastComponent p
  if ext != "" && decide (ext.data.length < b.data.length) && ext.data.isSuffixOf b.data then
    String.mk (b.data.take (b.data.length - ext.data.length))
  else b

/-- Result record of `validateCatalog`: the `warnings` array is always
initialised by the script, so it is modelled as a plain list. -/
structure ValidationResult where
  success : Bool
  errors : List String
  warnings : List String
deriving DecidableEq

/-- The script's `result.errors.push(e); result.success = false;` pair. -/
def pushError (r : ValidationResult) (e : String) : ValidationResult :=
  { r with errors := r.errors ++ [e], success := false }

/-- The script's `result.warnings?.push(w);`. -/
def pushWarning (r : ValidationResult) (w : String) : ValidationResult :=
  { r with warnings := r.warnings ++ [w] }

/-- Inputs of one validation run: parsed file contents, the
VALIDATE_IMAGE_FILES environment variable, and the filesystem oracle for
image paths (see the header comment). -/
structure Env where
  catalog : Option (Except String JVal)
  flags : Option (Except String JVal)
  validateImageFiles : Option String
  existsAt : String → Bool

/-- Representative text of the TypeError thrown by Node path functions on a
non-string argument. -/
def pathTypeErr : String := "TypeError: the path argument must be of type string"

/-- Representative text of the TypeError thrown by a property read on null. -/
def nullReadErr : String := "TypeError: cannot read properties of null"

/-- The label `Drink at index ${index}`. -/
def idxLabel (index : Nat) : String := "Drink at index " ++ natStr index

/-- The interpolation `${drink.id || 'unknown id'}`. -/
def idUnknown (drink : JVal) : String :=
  if truthyO (jsGet drink "id") then jsToStringO (jsGet drink "id") else "unknown id"

/-- The label `${drinkPrefix} (${drink.id || 'unknown id'})`. -/
def entryLabel (index : Nat) (drink : JVal) : String :=
  idxLabel index ++ " (" ++ idUnknown drink ++ ")"

/-- A labelled per-field message `${drinkPrefix} (${...}): t`. -/
def labeledMsg (index : Nat) (drink : JVal) (t : String) : String :=
  entryLabel index drink ++ ": " ++ t

/-- The `must be an object` error. -/
def objMsg (index : Nat) : String := idxLabel index ++ ": must be an object"

/-- The `id must be a non-empty string` error. -/
def idErrMsg (index : Nat) : String := idxLabel index ++ ": id must be a non-empty string"

/-- The duplicate id error. -/
def dupMsg (index : Nat) (s : String) : String :=
  idxLabel index ++ ": duplicate id \"" ++ s ++ "\""

/-- The snake_case format error. -/
def snakeMsg (index : Nat) (s : String) : String :=
  idxLabel index ++ ": id \"" ++ s ++ "\" must be in snake_case format (lowercase letters, numbers, and underscores only)"

/-- The missing-image error of the VALIDATE_IMAGE_FILES block. -/
def imageNotFoundMsg (p idt : String) : String :=
  "Image file not found: " ++ p ++ " for drink \"" ++ idt ++ "\""

/-- The missing-variant error of the VALIDATE_IMAGE_FILES block. -/
def variantNotFoundMsg (vp variant idt : String) : String :=
  "Image variant file not found: " ++ vp ++ " (" ++ variant ++ ") for drink \"" ++ idt ++ "\""

/-- The failing condition of the id check
`!drink.id || typeof drink.id !== 'string' || drink.id.trim() === ''`. -/
def idCheckFails (o : Option JVal) : Bool :=
  !truthyO o || !(jsTypeofO o == "string") ||
    (match o with
     | some (JVal.str s) => jsTrim s == ""
     | _ => false)

/-- The string held by a value that passed the id check. -/
def idStrOf : Option JVal → String
  | some (JVal.str s) => s
  | _ => ""

/-- The check `typeof drink === 'object' && drink !== null`. -/
def objTyped (v : JVal) : Bool := jsTypeof v == "object" && !v.isNull

/-- `Array.isArray(o) && o.every(x => typeof x === 'string')` on a
possibly-undefined value. -/
def isStringArrayO : Option JVal → Bool
  | some (JVal.arr xs) => xs.all (fun x => jsTypeof x == "string")
  | _ => false

/-- Lines 74-92 of the script: the id field check, duplicate detection
against `seenIds`, and the snake_case format check. -/
def checkId (index : Nat) (drink : JVal) : ValidationResult × List String → ValidationResult × List String :=
  fun st =>
    let idv := jsGet drink "id"
    if idCheckFails idv then
      (pushError st.1 (idErrMsg index), st.2)
    else
      let s := idStrOf idv
      let st1 :=
        if st.2.contains s then (pushError st.1 (dupMsg index s), st.2)
        else (st.1, st.2 ++ [s])
      if !isSnakeCase s then (pushError st1.1 (snakeMsg index s), st1.2)
      else st1

/-- Lines 94-98: the name field check. -/
def checkName (index : Nat) (drink : JVal) (r : ValidationResult) : ValidationResult :=
  let v := jsGet drink "name"
  if !truthyO v || !(jsTypeofO v == "string") ||
      (match v with
       | some (JVal.str s) => jsTrim s == ""
       | _ => false) then
    pushError r (labeledMsg index drink "name must be a non-empty string")
  else r

/-- Lines 100-104: the category field check. -/
def checkCategory (index : Nat) (drink : JVal) (r : ValidationResult) : ValidationResult :=
  let v := jsGet drink "category"
  if !truthyO v || !(jsTypeofO v == "string") then
    pushError r (labeledMsg index drink "category must be a string")
  else r

/-- Lines 106-110: the popularity range check. -/
def checkPopularity (index : Nat) (drink : JVal) (r : ValidationResult) : ValidationResult :=
  match jsGet drink "popularity" with
  | some (JVal.num q) =>
    if q < 0 || q > 100 then
      pushError r (labeledMsg index drink "popularity must be a number between 0 and 100")
    else r
  | _ => pushError r (labeledMsg index drink "popularity must be a number between 0 and 100")

/-- Lines 112-118: the optional aliases check. -/
def checkAliases (index : Nat) (drink : JVal) (r : ValidationResult) : ValidationResult :=
  let v := jsGet drink "aliases"
  if truthyO v then
    if !isStringArrayO v then
      pushError r (labeledMsg index drink "aliases must be an array of strings if provided")
    else r
  else r

/-- Lines 120-132: the imagePath check with the .png warning. -/
def checkImagePath (index : Nat) (drink : JVal) (r : ValidationResult) : ValidationResult :=
  let v := jsGet drink "imagePath"
  if !truthyO v || !(jsTypeofO v == "string") then
    pushError r (labeledMsg index drink "imagePath must be a string")
  else
    let p := idStrOf v
    let r1 :=
      if !jsStartsWith p "drinks/" then
        pushError r (labeledMsg index drink "imagePath must start with \"drinks/\"")
      else r
    if !endsWithPngCI p then
      pushWarning r1 (labeledMsg index drink "imagePath should be a .png file for consistency")
    else r1

/-- One iteration of the `variantKeys.forEach` loop of lines 154-165. -/
def variantKeyStep (index : Nat) (drink : JVal) (v : JVal) (key : String) (r : ValidationResult) : ValidationResult :=
  match jsGet v key with
  | some (JVal.str s) =>
    if jsTrim s == "" then
      pushError r (labeledMsg index drink ("imageVariants." ++ key ++ " must be a non-empty string"))
    else if !jsStartsWith s "drinks/_thumbs/" then
      pushError r (labeledMsg index drink ("imageVariants." ++ key ++ " must start with \"drinks/_thumbs/\""))
    else r
  | _ => pushError r (labeledMsg index drink ("imageVariants." ++ key ++ " must be a non-empty string"))

/-- The `variantKeys.forEach` loop. -/
def variantKeyLoop (index : Nat) (drink : JVal) (v : JVal) : List String → ValidationResult → ValidationResult
  | [], r => r
  | key :: keys, r => variantKeyLoop index drink v keys (variantKeyStep index drink v key r)

/-- One of the four derived-path warnings of lines 175-186. -/
def variantExpectWarn (index : Nat) (drink : JVal) (v : JVal) (key : String) (kindText expected : String) (r : ValidationResult) : ValidationResult :=
  let pv := jsGet v key
  if truthyO pv &&
      !(match pv with
        | some (JVal.str s) => s == expected
        | _ => false) then
    pushWarning r (labeledMsg index drink (kindText ++ " path should be " ++ expected))
  else r

/-- Lines 138-165: the at-least-one-variant error, the recommended-keys
warning, and the `variantKeys.forEach` loop. -/
def variantsPrefixBlock (index : Nat) (drink : JVal) (v : JVal) (r : ValidationResult) : ValidationResult :=
  let variantKeys := jsKeys v
  let r1 :=
    if variantKeys.isEmpty then
      pushError r (labeledMsg index drink "imageVariants must contain at least one variant")
    else r
  let hasSmMd := variantKeys.contains "sm" && variantKeys.contains "md"
  let hasNumeric := variantKeys.contains "512" && variantKeys.contains "1024"
  let r2 :=
    if !hasSmMd && !hasNumeric then
      pushWarning r1 (labeledMsg index drink "imageVariants should include keys \x7bsm, md\x7d (or \x7b512, 1024\x7d for legacy)")
    else r1
  variantKeyLoop index drink v variantKeys r2

/-- Lines 167-186: the four expected-path warnings, given the imagePath
string `ip`. -/
def variantWarnBlock (index : Nat) (drink : JVal) (v : JVal) (ip : String) (r : ValidationResult) : ValidationResult :=
  let base := basenameSuffix ip (extnameOf ip)
  let expected512 := "drinks/_thumbs/" ++ base ++ "_512.png"
  let expected1024 := "drinks/_thumbs/" ++ base ++ "_1024.png"
  let r4 := variantExpectWarn index drink v "sm" "sm" expected512 r
  let r5 := variantExpectWarn index drink v "md" "md" expected1024 r4
  let r6 := variantExpectWarn index drink v "512" "512" expected512 r5
  variantExpectWarn index drink v "1024" "1024" expected1024 r6

/-- Lines 138-187: the body of the imageVariants check once the field is a
non-null object value `v`; may throw (model of the TypeError raised by
`path.extname`/`path.basename` at line 168 when imagePath is not a string,
which discards the messages already pushed). -/
def checkImageVariantsBody (index : Nat) (drink : JVal) (v : JVal) (r : ValidationResult) : Except String ValidationResult :=
  let r3 := variantsPrefixBlock index drink v r
  match jsGet drink "imagePath" with
  | some (JVal.str ip) => Except.ok (variantWarnBlock index drink v ip r3)
  | _ => Except.error pathTypeErr

/-- Lines 134-187: the imageVariants field check. -/
def checkImageVariants (index : Nat) (drink : JVal) (r : ValidationResult) : Except String ValidationResult :=
  let iv := jsGet drink "imageVariants"
  if !truthyO iv || !(jsTypeofO iv == "object") then
    Except.ok (pushError r (labeledMsg index drink "imageVariants must be an object"))
  else
    checkImageVariantsBody index drink (iv.getD JVal.null) r

/-- Lines 189-195: the optional modifiersSupported check. -/
def checkModifiers (index : Nat) (drink : JVal) (r : ValidationResult) : ValidationResult :=
  let v := jsGet drink "modifiersSupported"
  if truthyO v then
    if !isStringArrayO v then
      pushError r (labeledMsg index drink "modifiersSupported must be an array of strings if provided")
    else r
  else r

/-- Lines 64-196: the body of `drinks.forEach`, threading the result record
and the `seenIds` set; `Except.error` models a thrown TypeError. -/
def validateDrink (index : Nat) (drink : JVal) (st : ValidationResult × List String) : Except String (ValidationResult × List String) :=
  if !objTyped drink then
    Except.ok (pushError st.1 (objMsg index), st.2)
  else
    let st1 := checkId index drink st
    let r2 := checkName index drink st1.1
    let r3 := checkCategory index drink r2
    let r4 := checkPopularity index drink r3
    let r5 := checkAliases index drink r4
    let r6 := checkImagePath index drink r5
    match checkImageVariants index drink r6 with
    | Except.error e => Except.error e
    | Except.ok r7 => Except.ok (checkModifiers index drink r7, st1.2)

/-- The `drinks.forEach` loop from a given starting index. -/
def validateEntriesFrom (i : Nat) (ds : List JVal) (st : ValidationResult × List String) : Except String (ValidationResult × List String) :=
  match ds with
  | [] => Except.ok st
  | d :: rest =>
    match validateDrink i d st with
    | Except.error e => Except.error e
    | Except.ok st1 => validateEntriesFrom (i + 1) rest st1

/-- The inner `Object.entries(drink.imageVariants).forEach` of lines 212-218;
`path.join` throws on a non-string variant value. -/
def variantFilesLoop (existsAt : String → Bool) (idt : String) : List (String × JVal) → ValidationResult → Except String ValidationResult
  | [], r => Except.ok r
  | (variant, vp) :: rest, r =>
    match vp with
    | JVal.str s =>
      let r1 := if !existsAt s then pushError r (variantNotFoundMsg s variant idt) else r
      variantFilesLoop existsAt idt rest r1
    | _ => Except.error pathTypeErr

/-- Lines 203-219: the per-drink body of the image existence block once the
element is known not to be null; `path.join` throws when imagePath is truthy
but not a string. -/
def imageFilesCheckBody (existsAt : String → Bool) (d : JVal) (r : ValidationResult) : Except String ValidationResult :=
  if !truthyO (jsGet d "id") || !truthyO (jsGet d "imagePath") then Except.ok r
  else
    match jsGet d "imagePath" with
    | some (JVal.str p) =>
      let r1 := if !existsAt p then pushError r (imageNotFoundMsg p (jsToStringO (jsGet d "id"))) else r
      let ivv := jsGet d "imageVariants"
      if truthyO ivv then variantFilesLoop existsAt (jsToStringO (jsGet d "id")) (jsEntries (ivv.getD JVal.null)) r1
      else Except.ok r1
    | _ => Except.error pathTypeErr

/-- Lines 202-220: the per-drink step of the image existence block.
A property read on a null element throws. -/
def imageFilesCheckOne (existsAt : String → Bool) (d : JVal) (r : ValidationResult) : Except String ValidationResult :=
  match d with
  | JVal.null => Except.error nullReadErr
  | _ => imageFilesCheckBody existsAt d r

/-- Lines 201-221: the image existence block over all drinks. -/
def imageFilesCheckAll (existsAt : String → Bool) : List JVal → ValidationResult → Except String ValidationResult
  | [], r => Except.ok r
  | d :: ds, r =>
    match imageFilesCheckOne existsAt d r with
    | Except.error e => Except.error e
    | Except.ok r1 => imageFilesCheckAll existsAt ds r1

/-- Lines 223-245: the optional flags.json check. -/
def flagsCheck (flags : Option (Except String JVal)) (r : ValidationResult) : ValidationResult :=
  match flags with
  | none => r
  | some (Except.error m) => pushError r ("Failed to parse flags.json: " ++ m)
  | some (Except.ok f) =>
    if !(jsTypeof f == "object") || f.isNull then
      pushError r "flags.json must be a JSON object"
    else
      let r1 :=
        if jsHasKey f "forceTextOnly" && !(jsTypeofO (jsGet f "forceTextOnly") == "boolean") then
          pushError r "flags.json: forceTextOnly must be a boolean"
        else r
      if jsHasKey f "catalogVersion" && !(jsTypeofO (jsGet f "catalogVersion") == "string") then
        pushError r1 "flags.json: catalogVersion must be a string"
      else r1

/-- Lines 25-248: `validateCatalog`.  `Except.error` models a TypeError
escaping the function; every other outcome is the returned result record. -/
def validateCatalog (env : Env) : Except String ValidationResult :=
  let r0 : ValidationResult := ⟨true, [], []⟩
  match env.catalog with
  | none => Except.ok (pushError r0 "drinks.json file not found")
  | some (Except.error m) => Except.ok (pushError r0 ("Failed to parse drinks.json: " ++ m))
  | some (Except.ok catalog) =>
    match catalog with
    | JVal.arr drinks =>
      (match validateEntriesFrom 0 drinks (r0, []) with
       | Except.error e => Except.error e
       | Except.ok st =>
         let afterImages :=
           if env.validateImageFiles == some "true" then imageFilesCheckAll env.existsAt drinks st.1
           else Except.ok st.1
         match afterImages with
         | Except.error e => Except.error e
         | Except.ok r1 => Except.ok (flagsCheck env.flags r1))
    | _ => Except.ok (pushError r0 "drinks.json must contain an array of drink entries")

instance : DecidableEq (Except String ValidationResult) :=
  fun a b =>
    match a, b with
    | Except.ok x, Except.ok y => decidable_of_iff (x = y) (by simp)
    | Except.error x, Except.error y => decidable_of_iff (x = y) (by simp)
    | Except.ok _, Except.error _ => isFalse (by simp)
    | Except.error _, Except.ok _ => isFalse (by simp)

/-- Derived description of the id accepted by the id check of an entry:
`some s` exactly when the entry is a non-null object whose `id` field passes
the non-empty-string check with value `s`. -/
def validIdOf (d : JVal) : Option String :=
  if objTyped d && !idCheckFails (jsGet d "id") then some (idStrOf (jsGet d "id")) else none

/-- Derived description of how one entry updates the `seenIds` set. -/
def seenStep (seen : List String) (d : JVal) : List String :=
  match validIdOf d with
  | some s => if seen.contains s then seen else seen ++ [s]
  | none => seen

/-- Derived description of the `seenIds` set after a list of entries. -/
def seenFoldFrom (seen : List String) : List JVal → List String
  | [] => seen
  | d :: ds => seenFoldFrom (seenStep seen d) ds

/-- Head character of a string (used to separate message families). -/
def msgHead (s : String) : Option Char := s.data.head?

/-- Classification of every error message the `drinks.forEach` body can push
for the entry at index `k` given the `seenIds` set `seen`: a duplicate-id
message is only ever pushed for the value of a passing `id` field that is
already in `seen`. -/
def EntryMsg (k : Nat) (seen : List String) (drink : JVal) (m : String) : Prop :=
  m = objMsg k ∨ m = idErrMsg k ∨
  (∃ s, m = dupMsg k s ∧ jsGet drink "id" = some (JVal.str s) ∧
    idCheckFails (jsGet drink "id") = false ∧ s ∈ seen) ∨
  (∃ s, m = snakeMsg k s) ∨
  (∃ t, m = idxLabel k ++ " " ++ t)

/-- Shape of every labelled per-field message of the entry at index `k`: the
index label followed by a space (never by a colon). -/
def LabelP (k : Nat) (m : String) : Prop := ∃ u, m = idxLabel k ++ " " ++ u

/-- Classification of the error messages the flags block can push. -/
def FlagMsg (m : String) : Prop :=
  m = "flags.json must be a JSON object" ∨
  m = "flags.json: forceTextOnly must be a boolean" ∨
  m = "flags.json: catalogVersion must be a string" ∨
  (∃ t, m = "Failed to parse flags.json: " ++ t)

/-- A result-transforming step that only appends messages: it appends some
error list `es` and warning list `ws`, clears `success` exactly when an
error was appended, and every appended error satisfies `P`. -/
def Accum (f : ValidationResult → ValidationResult) (P : String → Prop) : Prop :=
  ∀ r, ∃ es ws,
    f r = ⟨r.success && es.isEmpty, r.errors ++ es, r.warnings ++ ws⟩ ∧ ∀ m ∈ es, P m

/-- A fully valid margarita entry (the worked example of the spec). -/
def margaritaEntry : JVal := JVal.obj [
  ("id", JVal.str "margarita"),
  ("name", JVal.str "Margarita"),
  ("category", JVal.str "Classic"),
  ("popularity", JVal.num 98),
  ("imagePath", JVal.str "drinks/margarita.png"),
  ("imageVariants", JVal.obj [
    ("sm", JVal.str "drinks/_thumbs/margarita_512.png"),
    ("md", JVal.str "drinks/_thumbs/margarita_1024.png")])]

/-- The margarita entry with the sm variant renamed. -/
def margaritaBadSm : JVal := JVal.obj [
  ("id", JVal.str "margarita"),
  ("name", JVal.str "Margarita"),
  ("category", JVal.str "Classic"),
  ("popularity", JVal.num 98),
  ("imagePath", JVal.str "drinks/margarita.png"),
  ("imageVariants", JVal.obj [
    ("sm", JVal.str "drinks/_thumbs/marg_512.png"),
    ("md", JVal.str "drinks/_thumbs/margarita_1024.png")])]

/-- The margarita entry with `modifiersSupported: true`. -/
def margaritaModTrue : JVal := JVal.obj [
  ("id", JVal.str "margarita"),
  ("name", JVal.str "Margarita"),
  ("category", JVal.str "Classic"),
  ("popularity", JVal.num 98),
  ("imagePath", JVal.str "drinks/margarita.png"),
  ("imageVariants", JVal.obj [
    ("sm", JVal.str "drinks/_thumbs/margarita_512.png"),
    ("md", JVal.str "drinks/_thumbs/margarita_1024.png")]),
  ("modifiersSupported", JVal.bool true)]

/-- A well-formed entry with a parameterised id. -/
def plainEntry (i : String) : JVal := JVal.obj [
  ("id", JVal.str i),
  ("name", JVal.str "X"),
  ("category", JVal.str "C"),
  ("popularity", JVal.num 1),
  ("imagePath", JVal.str "drinks/x.png"),
  ("imageVariants", JVal.obj [
    ("sm", JVal.str "drinks/_thumbs/x_512.png"),
    ("md", JVal.str "drinks/_thumbs/x_1024.png")])]

/-- An entry whose imageVariants is a well-formed object but whose imagePath
is absent. -/
def noImagePathEntry : JVal := JVal.obj [
  ("imageVariants", JVal.obj [("sm", JVal.str "drinks/_thumbs/x_512.png")])]

/-- Environment with the given parsed catalog, no flags file, the image
toggle unset, and an empty filesystem. -/
def envOf (cat : JVal) : Env := ⟨some (Except.ok cat), none, none, fun _ => false⟩

/-- The errors produced for a catalog whose only element is the empty JSON
array (which JavaScript treats as an object). -/
def c4errors : List String :=
  ["Drink at index 0: id must be a non-empty string",
   "Drink at index 0 (unknown id): name must be a non-empty string",
   "Drink at index 0 (unknown id): category must be a string",
   "Drink at index 0 (unknown id): popularity must be a number between 0 and 100",
   "Drink at index 0 (unknown id): imagePath must be a string",
   "Drink at index 0 (unknown id): imageVariants must be an object"]

/-- A well-formed entry whose id is the one-space string. -/
def blankIdEntry : JVal := JVal.obj [
  ("id", JVal.str " "),
  ("name", JVal.str "X"),
  ("category", JVal.str "C"),
  ("popularity", JVal.num 1),
  ("imagePath", JVal.str "drinks/x.png"),
  ("imageVariants", JVal.obj [
    ("sm", JVal.str "drinks/_thumbs/x_512.png"),
    ("md", JVal.str "drinks/_thumbs/x_1024.png")])]

/-- A well-formed entry with no id field at all. -/
def noIdEntry : JVal := JVal.obj [
  ("name", JVal.str "X"),
  ("category", JVal.str "C"),
  ("popularity", JVal.num 1),
  ("imagePath", JVal.str "drinks/x.png"),
  ("imageVariants", JVal.obj [
    ("sm", JVal.str "drinks/_thumbs/x_512.png"),
    ("md", JVal.str "drinks/_thumbs/x_1024.png")])]

/-- A minimal entry carrying only a popularity field. -/
def popZeroEntry : JVal := JVal.obj [("popularity", JVal.num 0)]

theorem pushError_success (r : ValidationResult) (e : String) : (pushError r e).success = false := rfl

theorem pushError_errors (r : ValidationResult) (e : String) : (pushError r e).errors = r.errors ++ [e] := rfl

theorem pushError_warnings (r : ValidationResult) (e : String) : (pushError r e).warnings = r.warnings := rfl

theorem pushError_ne (r : ValidationResult) (e : String) : pushError r e ≠ r := by
  intro h
  have h2 := congrArg (fun x => x.errors.length) h
  simp [pushError] at h2

theorem isEmpty_append (l l' : List α) : (l ++ l').isEmpty = (l.isEmpty && l'.isEmpty) := by
  cases l <;> simp

theorem accum_id (P : String → Prop) : Accum (fun r => r) P := by
  intro r
  exact ⟨[], [], by simp, by simp⟩

theorem accum_pushError (e : String) (P : String → Prop) (h : P e) : Accum (fun r => pushError r e) P := by
  intro r
  refine ⟨[e], [], ?_, by simpa⟩
  simp [pushError]

theorem accum_pushWarning (w : String) (P : String → Prop) : Accum (fun r => pushWarning r w) P := by
  intro r
  refine ⟨[], [w], ?_, by simp⟩
  simp [pushWarning]

theorem accum_comp {f g : ValidationResult → ValidationResult} {P : String → Prop}
    (hf : Accum f P) (hg : Accum g P) : Accum (fun r => g (f r)) P := by
  intro r
  obtain ⟨es1, ws1, h1, hp1⟩ := hf r
  obtain ⟨es2, ws2, h2, hp2⟩ := hg (f r)
  refine ⟨es1 ++ es2, ws1 ++ ws2, ?_, ?_⟩
  · show g (f r) = _
    rw [h2, h1]
    simp [isEmpty_append, Bool.and_assoc]
  · intro m hm
    rcases List.mem_append.mp hm with h | h
    · exact hp1 m h
    · exact hp2 m h

theorem accum_ite (c : Bool) {f g : ValidationResult → ValidationResult} {P : String → Prop}
    (hf : Accum f P) (hg : Accum g P) : Accum (fun r => if c then f r else g r) P := by
  cases c
  · simpa using hg
  · simpa using hf

theorem accum_congr {f g : ValidationResult → ValidationResult} {P : String → Prop}
    (h : ∀ r, f r = g r) (hg : Accum g P) : Accum f P := by
  intro r
  obtain ⟨es, ws, h1, h2⟩ := hg r
  exact ⟨es, ws, by rw [h, h1], h2⟩

theorem labeledMsg_shape (k : Nat) (d : JVal) (t : String) :
    ∃ u, labeledMsg k d t = idxLabel k ++ " " ++ u := by
  refine ⟨"(" ++ idUnknown d ++ "): " ++ t, ?_⟩
  apply String.ext
  have e1 : (" (" : String).data = [' ', '('] := rfl
  have e2 : (" " : String).data = [' '] := rfl
  have e3 : ("(" : String).data = ['('] := rfl
  have e4 : ("): " : String).data = [')', ':', ' '] := rfl
  have e5 : (")" : String).data = [')'] := rfl
  have e6 : (": " : String).data = [':', ' '] := rfl
  simp [labeledMsg, entryLabel, e1, e2, e3, e4, e5, e6]

theorem accum_guard_pushError (c : Bool) (m : String) {P : String → Prop} (hm : P m) :
    Accum (fun r => if c then pushError r m else r) P :=
  accum_ite c (accum_pushError m P hm) (accum_id P)

theorem accum_guard_pushWarning (c : Bool) (w : String) (P : String → Prop) :
    Accum (fun r => if c then pushWarning r w else r) P :=
  accum_ite c (accum_pushWarning w P) (accum_id P)

theorem accum_checkName (k : Nat) (d : JVal) {P : String → Prop}
    (h : P (labeledMsg k d "name must be a non-empty string")) : Accum (checkName k d) P := by
  intro r
  exact accum_guard_pushError _ _ h r

theorem accum_checkCategory (k : Nat) (d : JVal) {P : String → Prop}
    (h : P (labeledMsg k d "category must be a string")) : Accum (checkCategory k d) P := by
  intro r
  exact accum_guard_pushError _ _ h r

theorem accum_checkPopularity (k : Nat) (d : JVal) {P : String → Prop}
    (h : P (labeledMsg k d "popularity must be a number between 0 and 100")) :
    Accum (checkPopularity k d) P := by
  intro r
  unfold checkPopularity
  split
  · exact accum_guard_pushError _ _ h r
  · exact accum_pushError _ P h r

theorem accum_checkAliases (k : Nat) (d : JVal) {P : String → Prop}
    (h : P (labeledMsg k d "aliases must be an array of strings if provided")) :
    Accum (checkAliases k d) P := by
  intro r
  exact accum_ite _ (accum_guard_pushError _ _ h) (accum_id P) r

theorem accum_checkModifiers (k : Nat) (d : JVal) {P : String → Prop}
    (h : P (labeledMsg k d "modifiersSupported must be an array of strings if provided")) :
    Accum (checkModifiers k d) P := by
  intro r
  exact accum_ite _ (accum_guard_pushError _ _ h) (accum_id P) r

theorem accum_checkImagePath (k : Nat) (d : JVal) {P : String → Prop}
    (h0 : P (labeledMsg k d "imagePath must be a string"))
    (h1 : P (labeledMsg k d "imagePath must start with \"drinks/\"")) :
    Accum (checkImagePath k d) P := by
  intro r
  unfold checkImagePath
  dsimp only
  split
  · exact accum_pushError _ P h0 r
  · exact accum_comp (accum_guard_pushError _ _ h1) (accum_guard_pushWarning _ _ P) r

theorem accum_variantKeyStep (k : Nat) (d : JVal) (v : JVal) (key : String) {P : String → Prop}
    (h1 : P (labeledMsg k d ("imageVariants." ++ key ++ " must be a non-empty string")))
    (h2 : P (labeledMsg k d ("imageVariants." ++ key ++ " must start with \"drinks/_thumbs/\""))) :
    Accum (variantKeyStep k d v key) P := by
  intro r
  unfold variantKeyStep
  split
  · exact accum_ite _ (accum_pushError _ P h1) (accum_guard_pushError _ _ h2) r
  · exact accum_pushError _ P h1 r

theorem accum_variantKeyLoop (k : Nat) (d : JVal) (v : JVal) (keys : List String) {P : String → Prop}
    (h : ∀ key, Accum (variantKeyStep k d v key) P) :
    Accum (fun r => variantKeyLoop k d v keys r) P := by
  induction keys with
  | nil => exact accum_id P
  | cons key rest ih =>
    intro r
    exact accum_comp (h key) ih r

theorem accum_variantExpectWarn (k : Nat) (d : JVal) (v : JVal) (key kindText expected : String)
    (P : String → Prop) : Accum (variantExpectWarn k d v key kindText expected) P := by
  intro r
  exact accum_guard_pushWarning _ _ P r

theorem labelP_msg (k : Nat) (d : JVal) (t : String) : LabelP k (labeledMsg k d t) :=
  labeledMsg_shape k d t

theorem accum_variantsPrefixBlock (k : Nat) (d v : JVal) :
    Accum (variantsPrefixBlock k d v) (LabelP k) := by
  intro r
  unfold variantsPrefixBlock
  dsimp only
  exact accum_comp
    (accum_comp (accum_guard_pushError _ _ (labelP_msg k d _)) (accum_guard_pushWarning _ _ _))
    (accum_variantKeyLoop k d v _
      (fun key => accum_variantKeyStep k d v key (labelP_msg k d _) (labelP_msg k d _))) r

theorem accum_variantWarnBlock (k : Nat) (d v : JVal) (ip : String) (P : String → Prop) :
    Accum (variantWarnBlock k d v ip) P := by
  intro r
  unfold variantWarnBlock
  dsimp only
  exact accum_comp
    (accum_comp
      (accum_comp (accum_variantExpectWarn k d v "sm" "sm" _ P) (accum_variantExpectWarn k d v "md" "md" _ P))
      (accum_variantExpectWarn k d v "512" "512" _ P))
    (accum_variantExpectWarn k d v "1024" "1024" _ P) r

theorem checkImageVariantsBody_spec (k : Nat) (d v : JVal) (r : ValidationResult) :
    checkImageVariantsBody k d v r = Except.error pathTypeErr ∨
    ∃ es ws, checkImageVariantsBody k d v r =
        Except.ok ⟨r.success && es.isEmpty, r.errors ++ es, r.warnings ++ ws⟩ ∧
      ∀ m ∈ es, LabelP k m := by
  unfold checkImageVariantsBody
  dsimp only
  rcases hip : jsGet d "imagePath" with _ | w
  · exact Or.inl rfl
  · cases w with
    | str ip =>
      right
      obtain ⟨es, ws, heq, hp⟩ :=
        accum_comp (accum_variantsPrefixBlock k d v) (accum_variantWarnBlock k d v ip (LabelP k)) r
      exact ⟨es, ws, congrArg Except.ok heq, hp⟩
    | null => exact Or.inl rfl
    | bool b => exact Or.inl rfl
    | num q => exact Or.inl rfl
    | arr xs => exact Or.inl rfl
    | obj fs => exact Or.inl rfl

theorem checkImageVariants_spec (k : Nat) (d : JVal) (r : ValidationResult) :
    checkImageVariants k d r = Except.error pathTypeErr ∨
    ∃ es ws, checkImageVariants k d r =
        Except.ok ⟨r.success && es.isEmpty, r.errors ++ es, r.warnings ++ ws⟩ ∧
      ∀ m ∈ es, LabelP k m := by
  unfold checkImageVariants
  dsimp only
  split
  · right
    obtain ⟨es, ws, heq, hp⟩ := accum_pushError (labeledMsg k d "imageVariants must be an object") (LabelP k) (labelP_msg k d _) r
    exact ⟨es, ws, congrArg Except.ok heq, hp⟩
  · exact checkImageVariantsBody_spec k d _ r

theorem idCheckFails_false_shape (o : Option JVal) (h : idCheckFails o = false) :
    o = some (JVal.str (idStrOf o)) := by
  rcases o with _ | v
  · simp [idCheckFails, truthyO] at h
  · cases v <;> simp_all [idCheckFails, truthyO, truthy, jsTypeofO, jsTypeof, idStrOf]

theorem checkId_spec (k : Nat) (d : JVal) (r : ValidationResult) (seen : List String) :
    ∃ es,
      (checkId k d (r, seen)).1 = ⟨r.success && es.isEmpty, r.errors ++ es, r.warnings⟩ ∧
      (checkId k d (r, seen)).2 =
        (if idCheckFails (jsGet d "id") then seen
         else if seen.contains (idStrOf (jsGet d "id")) then seen
         else seen ++ [idStrOf (jsGet d "id")]) ∧
      (∀ m ∈ es, m = idErrMsg k ∨
        (m = dupMsg k (idStrOf (jsGet d "id")) ∧ idCheckFails (jsGet d "id") = false ∧
          seen.contains (idStrOf (jsGet d "id")) = true) ∨
        (∃ s, m = snakeMsg k s)) ∧
      (idCheckFails (jsGet d "id") = true → idErrMsg k ∈ es) ∧
      (idCheckFails (jsGet d "id") = false → seen.contains (idStrOf (jsGet d "id")) = true →
        dupMsg k (idStrOf (jsGet d "id")) ∈ es) := by
  unfold checkId
  dsimp only
  cases hb : idCheckFails (jsGet d "id") with
  | true =>
    refine ⟨[idErrMsg k], ?_, ?_, ?_, ?_, ?_⟩ <;> simp [hb, pushError]
  | false =>
    cases hc : seen.contains (idStrOf (jsGet d "id")) with
    | true =>
      cases hs : isSnakeCase (idStrOf (jsGet d "id")) with
      | true =>
        refine ⟨[dupMsg k (idStrOf (jsGet d "id"))], ?_, ?_, ?_, ?_, ?_⟩ <;>
          simp [hb, hc, hs, pushError]
      | false =>
        refine ⟨[dupMsg k (idStrOf (jsGet d "id")), snakeMsg k (idStrOf (jsGet d "id"))], ?_, ?_, ?_, ?_, ?_⟩ <;>
          simp [hb, hc, hs, pushError]
    | false =>
      cases hs : isSnakeCase (idStrOf (jsGet d "id")) with
      | true =>
        refine ⟨[], ?_, ?_, ?_, ?_, ?_⟩ <;> simp [hb, hc, hs]
      | false =>
        refine ⟨[snakeMsg k (idStrOf (jsGet d "id"))], ?_, ?_, ?_, ?_, ?_⟩ <;>
          simp [hb, hc, hs, pushError]

theorem seenStep_eq_of_objTyped (d : JVal) (seen : List String) (h : objTyped d = true) :
    (if idCheckFails (jsGet d "id") then seen
     else if seen.contains (idStrOf (jsGet d "id")) then seen
     else seen ++ [idStrOf (jsGet d "id")]) = seenStep seen d := by
  unfold seenStep validIdOf
  cases hb : idCheckFails (jsGet d "id") <;> simp [h, hb]

theorem seenStep_eq_of_not_objTyped (d : JVal) (seen : List String) (h : objTyped d = false) :
    seenStep seen d = seen := by
  unfold seenStep validIdOf
  simp [h]

theorem checkModifiers_eq (k : Nat) (d : JVal) (r : ValidationResult) :
    checkModifiers k d r =
      if truthyO (jsGet d "modifiersSupported") && !isStringArrayO (jsGet d "modifiersSupported") then
        pushError r (labeledMsg k d "modifiersSupported must be an array of strings if provided")
      else r := by
  unfold checkModifiers
  dsimp only
  cases h1 : truthyO (jsGet d "modifiersSupported") <;>
    cases h2 : isStringArrayO (jsGet d "modifiersSupported") <;> simp [h1, h2]

theorem validateDrink_spec (k : Nat) (d : JVal) (r : ValidationResult) (seen : List String) :
    validateDrink k d (r, seen) = Except.error pathTypeErr ∨
    ∃ es ws, validateDrink k d (r, seen) =
        Except.ok (⟨r.success && es.isEmpty, r.errors ++ es, r.warnings ++ ws⟩, seenStep seen d) ∧
      (∀ m ∈ es, EntryMsg k seen d m) ∧
      (objTyped d = true → idCheckFails (jsGet d "id") = true → idErrMsg k ∈ es) ∧
      (∀ s, validIdOf d = some s → s ∈ seen → dupMsg k s ∈ es) := by
  unfold validateDrink
  dsimp only
  cases ho : objTyped d with
  | false =>
    rw [if_pos (by simp [ho])]
    right
    refine ⟨[objMsg k], [], ?_, ?_, ?_, ?_⟩
    · simp [pushError, seenStep_eq_of_not_objTyped d seen ho]
    · intro m hm
      simp only [List.mem_singleton] at hm
      subst hm
      exact Or.inl rfl
    · intro h1 _
      simp at h1
    · intro s hs
      unfold validIdOf at hs
      simp [ho] at hs
  | true =>
    rw [if_neg (by simp [ho])]
    obtain ⟨es0, h0f, h0s, h0m, h0e, h0d⟩ := checkId_spec k d r seen
    have hacc : Accum (fun r0 => checkImagePath k d (checkAliases k d (checkPopularity k d
        (checkCategory k d (checkName k d r0))))) (LabelP k) :=
      accum_comp (accum_comp (accum_comp (accum_comp
        (accum_checkName k d (labelP_msg k d _))
        (accum_checkCategory k d (labelP_msg k d _)))
        (accum_checkPopularity k d (labelP_msg k d _)))
        (accum_checkAliases k d (labelP_msg k d _)))
        (accum_checkImagePath k d (labelP_msg k d _) (labelP_msg k d _))
    obtain ⟨es1, ws1, h1eq, h1m⟩ := hacc (checkId k d (r, seen)).1
    rcases checkImageVariants_spec k d
        (checkImagePath k d (checkAliases k d (checkPopularity k d (checkCategory k d
          (checkName k d (checkId k d (r, seen)).1))))) with h2 | ⟨es2, ws2, h2eq, h2m⟩
    · left
      simp only [h2]
    · right
      have h1b : checkImagePath k d (checkAliases k d (checkPopularity k d (checkCategory k d
          (checkName k d (checkId k d (r, seen)).1)))) =
          ⟨r.success && (es0.isEmpty && es1.isEmpty), r.errors ++ (es0 ++ es1), r.warnings ++ ws1⟩ := by
        have hb : checkImagePath k d (checkAliases k d (checkPopularity k d (checkCategory k d
            (checkName k d (checkId k d (r, seen)).1)))) =
            ValidationResult.mk ((checkId k d (r, seen)).1.success && es1.isEmpty)
              ((checkId k d (r, seen)).1.errors ++ es1)
              ((checkId k d (r, seen)).1.warnings ++ ws1) := h1eq
        rw [hb, h0f]
        simp [Bool.and_assoc, List.append_assoc]
      rw [h2eq]
      dsimp only
      simp only [h1b, checkModifiers_eq k d]
      have hmem : ∀ m, m ∈ es0 ∨ LabelP k m → EntryMsg k seen d m := by
        intro m hm
        rcases hm with hm | hm
        · rcases h0m m hm with h | ⟨he, hf, hc⟩ | ⟨s, hs⟩
          · exact Or.inr (Or.inl h)
          · refine Or.inr (Or.inr (Or.inl ⟨idStrOf (jsGet d "id"), he, ?_, hf, ?_⟩))
            · exact idCheckFails_false_shape _ hf
            · exact List.elem_iff.mp hc
          · exact Or.inr (Or.inr (Or.inr (Or.inl ⟨s, hs⟩)))
        · exact Or.inr (Or.inr (Or.inr (Or.inr hm)))
      have hdup : ∀ s, validIdOf d = some s → s ∈ seen → dupMsg k s ∈ es0 := by
        intro s hv hsn
        unfold validIdOf at hv
        rw [ho] at hv
        cases hb : idCheckFails (jsGet d "id") with
        | true => rw [hb] at hv; simp at hv
        | false =>
          rw [hb] at hv
          simp only [Bool.not_false, Bool.and_true, if_pos] at hv
          obtain rfl : idStrOf (jsGet d "id") = s := by simpa using hv
          exact h0d hb (List.elem_iff.mpr hsn)
      cases hmc : (truthyO (jsGet d "modifiersSupported") && !isStringArrayO (jsGet d "modifiersSupported")) with
      | false =>
        refine ⟨es0 ++ (es1 ++ es2), ws1 ++ ws2, ?_, ?_, ?_, ?_⟩
        · rw [h0s, seenStep_eq_of_objTyped d seen ho]
          simp [h1b, isEmpty_append, Bool.and_assoc, List.append_assoc]
        · intro m hm
          rcases List.mem_append.mp hm with hm | hm
          · exact hmem m (Or.inl hm)
          · rcases List.mem_append.mp hm with hm | hm
            · exact hmem m (Or.inr (h1m m hm))
            · exact hmem m (Or.inr (h2m m hm))
        · intro _ hf
          exact List.mem_append.mpr (Or.inl (h0e hf))
        · intro s hv hsn
          exact List.mem_append.mpr (Or.inl (hdup s hv hsn))
      | true =>
        refine ⟨es0 ++ (es1 ++ (es2 ++ [labeledMsg k d "modifiersSupported must be an array of strings if provided"])), ws1 ++ ws2, ?_, ?_, ?_, ?_⟩
        · rw [h0s, seenStep_eq_of_objTyped d seen ho]
          simp [h1b, pushError, isEmpty_append, Bool.and_assoc, List.append_assoc]
        · intro m hm
          rcases List.mem_append.mp hm with hm | hm
          · exact hmem m (Or.inl hm)
          · rcases List.mem_append.mp hm with hm | hm
            · exact hmem m (Or.inr (h1m m hm))
            · rcases List.mem_append.mp hm with hm | hm
              · exact hmem m (Or.inr (h2m m hm))
              · simp only [List.mem_singleton] at hm
                subst hm
                exact hmem _ (Or.inr (labelP_msg k d _))
        · intro _ hf
          exact List.mem_append.mpr (Or.inl (h0e hf))
        · intro s hv hsn
          exact List.mem_append.mpr (Or.inl (hdup s hv hsn))

theorem seenFoldFrom_nil (seen : List String) : seenFoldFrom seen [] = seen := rfl

theorem seenFoldFrom_cons (seen : List String) (d : JVal) (ds : List JVal) :
    seenFoldFrom seen (d :: ds) = seenFoldFrom (seenStep seen d) ds := rfl

theorem validateEntriesFrom_spec (ds : List JVal) :
    ∀ (i : Nat) (r : ValidationResult) (seen : List String),
    (∃ e, validateEntriesFrom i ds (r, seen) = Except.error e) ∨
    ∃ es ws, validateEntriesFrom i ds (r, seen) =
        Except.ok (⟨r.success && es.isEmpty, r.errors ++ es, r.warnings ++ ws⟩, seenFoldFrom seen ds) ∧
      (∀ m ∈ es, ∃ k, k < ds.length ∧
        EntryMsg (i + k) (seenFoldFrom seen (ds.take k)) (ds.getD k JVal.null) m) ∧
      (∀ k, k < ds.length → objTyped (ds.getD k JVal.null) = true →
        idCheckFails (jsGet (ds.getD k JVal.null) "id") = true → idErrMsg (i + k) ∈ es) ∧
      (∀ k s, k < ds.length → validIdOf (ds.getD k JVal.null) = some s →
        s ∈ seenFoldFrom seen (ds.take k) → dupMsg (i + k) s ∈ es) := by
  induction ds with
  | nil =>
    intro i r seen
    right
    refine ⟨[], [], by simp [validateEntriesFrom, seenFoldFrom_nil], ?_, ?_, ?_⟩
    · intro m hm
      simp at hm
    · intro k hk
      simp at hk
    · intro k s hk
      simp at hk
  | cons d ds ih =>
    intro i r seen
    simp only [validateEntriesFrom]
    rcases validateDrink_spec i d r seen with herr | ⟨es0, ws0, heq, hm0, he0, hd0⟩
    · rw [herr]
      exact Or.inl ⟨pathTypeErr, rfl⟩
    · rw [heq]
      dsimp only
      rcases ih (i + 1) ⟨r.success && es0.isEmpty, r.errors ++ es0, r.warnings ++ ws0⟩
          (seenStep seen d) with ⟨e, herr1⟩ | ⟨es1, ws1, heq1, hm1, he1, hd1⟩
      · rw [herr1]
        exact Or.inl ⟨e, rfl⟩
      · right
        refine ⟨es0 ++ es1, ws0 ++ ws1, ?_, ?_, ?_, ?_⟩
        · rw [heq1, seenFoldFrom_cons]
          simp [isEmpty_append, Bool.and_assoc, List.append_assoc]
        · intro m hm
          rcases List.mem_append.mp hm with hm | hm
          · refine ⟨0, by simp, ?_⟩
            simpa using hm0 m hm
          · obtain ⟨k, hk, hE⟩ := hm1 m hm
            refine ⟨k + 1, by simpa using hk, ?_⟩
            have hidx : i + (k + 1) = i + 1 + k := by omega
            rw [hidx]
            simpa [seenFoldFrom_cons] using hE
        · intro k hk hobj hfail
          cases k with
          | zero =>
            refine List.mem_append.mpr (Or.inl ?_)
            simpa using he0 (by simpa using hobj) (by simpa using hfail)
          | succ k =>
            refine List.mem_append.mpr (Or.inr ?_)
            have hidx : i + (k + 1) = i + 1 + k := by omega
            rw [hidx]
            exact he1 k (by simpa using hk) (by simpa using hobj) (by simpa using hfail)
        · intro k s hk hv hs
          cases k with
          | zero =>
            refine List.mem_append.mpr (Or.inl ?_)
            simpa using hd0 s (by simpa using hv) (by simpa using hs)
          | succ k =>
            refine List.mem_append.mpr (Or.inr ?_)
            have hidx : i + (k + 1) = i + 1 + k := by omega
            rw [hidx]
            exact hd1 k s (by simpa using hk) (by simpa using hv) (by simpa [seenFoldFrom_cons] using hs)


theorem imageNotFoundMsg_shape (p idt : String) : ∃ t, imageNotFoundMsg p idt = "Image " ++ t := by
  refine ⟨"file not found: " ++ (p ++ (" for drink \"" ++ (idt ++ "\""))), ?_⟩
  apply String.ext
  simp [imageNotFoundMsg, List.append_assoc]

theorem variantNotFoundMsg_shape (vp variant idt : String) :
    ∃ t, variantNotFoundMsg vp variant idt = "Image " ++ t := by
  refine ⟨"variant file not found: " ++ (vp ++ (" (" ++ (variant ++ (") for drink \"" ++ (idt ++ "\""))))), ?_⟩
  apply String.ext
  simp [variantNotFoundMsg, List.append_assoc]

theorem variantFilesLoop_spec (ex : String → Bool) (idt : String) (entries : List (String × JVal)) :
    ∀ r : ValidationResult,
    (∃ e, variantFilesLoop ex idt entries r = Except.error e) ∨
    ∃ es, variantFilesLoop ex idt entries r =
        Except.ok ⟨r.success && es.isEmpty, r.errors ++ es, r.warnings⟩ ∧
      ∀ m ∈ es, ∃ t, m = "Image " ++ t := by
  induction entries with
  | nil =>
    intro r
    right
    exact ⟨[], by simp [variantFilesLoop], by simp⟩
  | cons e rest ih =>
    intro r
    obtain ⟨variant, vp⟩ := e
    cases vp with
    | str s =>
      cases hex : ex s with
      | false =>
        rcases ih (pushError r (variantNotFoundMsg s variant idt)) with ⟨e1, h1⟩ | ⟨es, h1, hm⟩
        · left
          refine ⟨e1, ?_⟩
          simpa [variantFilesLoop, hex] using h1
        · right
          refine ⟨variantNotFoundMsg s variant idt :: es, ?_, ?_⟩
          · rw [show variantFilesLoop ex idt ((variant, JVal.str s) :: rest) r =
                variantFilesLoop ex idt rest (pushError r (variantNotFoundMsg s variant idt)) from by
              simp [variantFilesLoop, hex]]
            rw [h1]
            simp [pushError]
          · intro m hm2
            rcases List.mem_cons.mp hm2 with rfl | hm2
            · exact variantNotFoundMsg_shape s variant idt
            · exact hm m hm2
      | true =>
        rcases ih r with ⟨e1, h1⟩ | ⟨es, h1, hm⟩
        · left
          refine ⟨e1, ?_⟩
          simpa [variantFilesLoop, hex] using h1
        · right
          refine ⟨es, ?_, hm⟩
          rw [show variantFilesLoop ex idt ((variant, JVal.str s) :: rest) r =
              variantFilesLoop ex idt rest r from by simp [variantFilesLoop, hex]]
          exact h1
    | null => exact Or.inl ⟨pathTypeErr, rfl⟩
    | bool b => exact Or.inl ⟨pathTypeErr, rfl⟩
    | num q => exact Or.inl ⟨pathTypeErr, rfl⟩
    | arr xs => exact Or.inl ⟨pathTypeErr, rfl⟩
    | obj fs => exact Or.inl ⟨pathTypeErr, rfl⟩

theorem imageFilesCheckBody_spec (ex : String → Bool) (d : JVal) (r : ValidationResult) :
    (∃ e, imageFilesCheckBody ex d r = Except.error e) ∨
    ∃ es, imageFilesCheckBody ex d r =
        Except.ok ⟨r.success && es.isEmpty, r.errors ++ es, r.warnings⟩ ∧
      ∀ m ∈ es, ∃ t, m = "Image " ++ t := by
  unfold imageFilesCheckBody
  cases hg : (!truthyO (jsGet d "id") || !truthyO (jsGet d "imagePath")) with
  | true =>
    right
    rw [if_pos rfl]
    exact ⟨[], by simp, by simp⟩
  | false =>
    rw [if_neg (by simp)]
    rcases hip : jsGet d "imagePath" with _ | w
    · rw [hip] at hg
      simp [truthyO] at hg
    · cases w with
      | str p =>
        simp only [hip]
        cases hiv : truthyO (jsGet d "imageVariants") with
        | false =>
          rw [if_neg (by simp)]
          right
          cases hex : ex p with
          | true =>
            rw [if_neg (by simp)]
            exact ⟨[], by simp, by simp⟩
          | false =>
            rw [if_pos (by simp)]
            refine ⟨[imageNotFoundMsg p (jsToStringO (jsGet d "id"))], by simp [pushError], ?_⟩
            intro m hm
            rcases List.mem_singleton.mp hm with rfl
            exact imageNotFoundMsg_shape p _
        | true =>
          rw [if_pos rfl]
          cases hex : ex p with
          | true =>
            rw [if_neg (by simp)]
            rcases variantFilesLoop_spec ex (jsToStringO (jsGet d "id"))
                (jsEntries ((jsGet d "imageVariants").getD JVal.null)) r with ⟨e1, h1⟩ | ⟨es, h1, hm⟩
            · exact Or.inl ⟨e1, h1⟩
            · exact Or.inr ⟨es, h1, hm⟩
          | false =>
            rw [if_pos (by simp)]
            rcases variantFilesLoop_spec ex (jsToStringO (jsGet d "id"))
                (jsEntries ((jsGet d "imageVariants").getD JVal.null))
                (pushError r (imageNotFoundMsg p (jsToStringO (jsGet d "id")))) with ⟨e1, h1⟩ | ⟨es, h1, hm⟩
            · exact Or.inl ⟨e1, h1⟩
            · right
              refine ⟨imageNotFoundMsg p (jsToStringO (jsGet d "id")) :: es, ?_, ?_⟩
              · rw [h1]
                simp [pushError]
              · intro m hm2
                rcases List.mem_cons.mp hm2 with rfl | hm2
                · exact imageNotFoundMsg_shape p _
                · exact hm m hm2
      | null => exact Or.inl ⟨pathTypeErr, by simp [hip]⟩
      | bool b => exact Or.inl ⟨pathTypeErr, by simp [hip]⟩
      | num q => exact Or.inl ⟨pathTypeErr, by simp [hip]⟩
      | arr xs => exact Or.inl ⟨pathTypeErr, by simp [hip]⟩
      | obj fs => exact Or.inl ⟨pathTypeErr, by simp [hip]⟩

theorem imageFilesCheckOne_spec (ex : String → Bool) (d : JVal) (r : ValidationResult) :
    (∃ e, imageFilesCheckOne ex d r = Except.error e) ∨
    ∃ es, imageFilesCheckOne ex d r =
        Except.ok ⟨r.success && es.isEmpty, r.errors ++ es, r.warnings⟩ ∧
      ∀ m ∈ es, ∃ t, m = "Image " ++ t := by
  cases d with
  | null => exact Or.inl ⟨nullReadErr, rfl⟩
  | bool b => exact imageFilesCheckBody_spec ex _ r
  | num q => exact imageFilesCheckBody_spec ex _ r
  | str s => exact imageFilesCheckBody_spec ex _ r
  | arr xs => exact imageFilesCheckBody_spec ex _ r
  | obj fs => exact imageFilesCheckBody_spec ex _ r

theorem imageFilesCheckAll_spec (ex : String → Bool) (ds : List JVal) :
    ∀ r : ValidationResult,
    (∃ e, imageFilesCheckAll ex ds r = Except.error e) ∨
    ∃ es, imageFilesCheckAll ex ds r =
        Except.ok ⟨r.success && es.isEmpty, r.errors ++ es, r.warnings⟩ ∧
      ∀ m ∈ es, ∃ t, m = "Image " ++ t := by
  induction ds with
  | nil =>
    intro r
    right
    exact ⟨[], by simp [imageFilesCheckAll], by simp⟩
  | cons d rest ih =>
    intro r
    simp only [imageFilesCheckAll]
    rcases imageFilesCheckOne_spec ex d r with ⟨e1, h1⟩ | ⟨es1, h1, hm1⟩
    · rw [h1]
      exact Or.inl ⟨e1, rfl⟩
    · rw [h1]
      dsimp only
      rcases ih ⟨r.success && es1.isEmpty, r.errors ++ es1, r.warnings⟩ with ⟨e2, h2⟩ | ⟨es2, h2, hm2⟩
      · rw [h2]
        exact Or.inl ⟨e2, rfl⟩
      · rw [h2]
        right
        refine ⟨es1 ++ es2, ?_, ?_⟩
        · simp [isEmpty_append, Bool.and_assoc, List.append_assoc]
        · intro m hm
          rcases List.mem_append.mp hm with hm | hm
          · exact hm1 m hm
          · exact hm2 m hm

theorem flagsCheck_spec (flags : Option (Except String JVal)) (r : ValidationResult) :
    ∃ es, flagsCheck flags r = ⟨r.success && es.isEmpty, r.errors ++ es, r.warnings⟩ ∧
      ∀ m ∈ es, FlagMsg m := by
  rcases flags with _ | f
  · exact ⟨[], by simp [flagsCheck], by simp⟩
  · rcases f with m | f
    · refine ⟨["Failed to parse flags.json: " ++ m], by simp [flagsCheck, pushError], ?_⟩
      intro x hx
      rcases List.mem_singleton.mp hx with rfl
      exact Or.inr (Or.inr (Or.inr ⟨m, rfl⟩))
    · rw [show flagsCheck (some (Except.ok f)) r =
          (if !(jsTypeof f == "object") || f.isNull then
             pushError r "flags.json must be a JSON object"
           else
             let r1 :=
               if jsHasKey f "forceTextOnly" && !(jsTypeofO (jsGet f "forceTextOnly") == "boolean") then
                 pushError r "flags.json: forceTextOnly must be a boolean"
               else r
             if jsHasKey f "catalogVersion" && !(jsTypeofO (jsGet f "catalogVersion") == "string") then
               pushError r1 "flags.json: catalogVersion must be a string"
             else r1) from rfl]
      cases hobj : (!(jsTypeof f == "object") || f.isNull) with
      | true =>
        rw [if_pos rfl]
        refine ⟨["flags.json must be a JSON object"], by simp [pushError], ?_⟩
        intro x hx
        rcases List.mem_singleton.mp hx with rfl
        exact Or.inl rfl
      | false =>
        rw [if_neg (by simp)]
        dsimp only
        cases h1 : (jsHasKey f "forceTextOnly" && !(jsTypeofO (jsGet f "forceTextOnly") == "boolean")) with
        | true =>
          rw [if_pos rfl]
          cases h2 : (jsHasKey f "catalogVersion" && !(jsTypeofO (jsGet f "catalogVersion") == "string")) with
          | true =>
            rw [if_pos rfl]
            refine ⟨["flags.json: forceTextOnly must be a boolean", "flags.json: catalogVersion must be a string"],
              by simp [pushError], ?_⟩
            intro x hx
            rcases List.mem_cons.mp hx with rfl | hx
            · exact Or.inr (Or.inl rfl)
            · rcases List.mem_singleton.mp hx with rfl
              exact Or.inr (Or.inr (Or.inl rfl))
          | false =>
            rw [if_neg (by simp)]
            refine ⟨["flags.json: forceTextOnly must be a boolean"], by simp [pushError], ?_⟩
            intro x hx
            rcases List.mem_singleton.mp hx with rfl
            exact Or.inr (Or.inl rfl)
        | false =>
          simp only [Bool.false_eq_true, if_false]
          cases h2 : (jsHasKey f "catalogVersion" && !(jsTypeofO (jsGet f "catalogVersion") == "string")) with
          | true =>
            rw [if_pos rfl]
            refine ⟨["flags.json: catalogVersion must be a string"], by simp [pushError], ?_⟩
            intro x hx
            rcases List.mem_singleton.mp hx with rfl
            exact Or.inr (Or.inr (Or.inl rfl))
          | false =>
            rw [if_neg (by simp)]
            exact ⟨[], by simp, by simp⟩

theorem validateCatalog_arr_spec (env : Env) (drinks : List JVal) (r : ValidationResult)
    (hcat : env.catalog = some (Except.ok (JVal.arr drinks)))
    (hok : validateCatalog env = Except.ok r) :
    ∃ esE esF esG,
      r.errors = esE ++ esF ++ esG ∧
      r.success = (esE.isEmpty && (esF.isEmpty && esG.isEmpty)) ∧
      (∀ m ∈ esE, ∃ k, k < drinks.length ∧
        EntryMsg k (seenFoldFrom [] (drinks.take k)) (drinks.getD k JVal.null) m) ∧
      (∀ m ∈ esF, ∃ t, m = "Image " ++ t) ∧
      (∀ m ∈ esG, FlagMsg m) ∧
      (∀ k, k < drinks.length → objTyped (drinks.getD k JVal.null) = true →
        idCheckFails (jsGet (drinks.getD k JVal.null) "id") = true → idErrMsg k ∈ esE) ∧
      (∀ k s, k < drinks.length → validIdOf (drinks.getD k JVal.null) = some s →
        s ∈ seenFoldFrom [] (drinks.take k) → dupMsg k s ∈ esE) ∧
      (env.validateImageFiles ≠ some "true" → esF = []) := by
  unfold validateCatalog at hok
  rw [hcat] at hok
  dsimp only at hok
  rcases validateEntriesFrom_spec drinks 0 ⟨true, [], []⟩ [] with ⟨e, herr⟩ | ⟨esE, wsE, heqE, hmE, heE, hdE⟩
  · rw [herr] at hok
    simp at hok
  · rw [heqE] at hok
    dsimp only at hok
    simp only [Bool.true_and, List.nil_append] at hok
    cases htog : (env.validateImageFiles == some "true") with
    | false =>
      rw [htog] at hok
      rw [if_neg (by simp)] at hok
      dsimp only at hok
      obtain ⟨esG, hG, hmG⟩ := flagsCheck_spec env.flags ⟨esE.isEmpty, esE, wsE⟩
      rw [hG] at hok
      simp only [Except.ok.injEq] at hok
      subst hok
      refine ⟨esE, [], esG, by simp, by simp, ?_, by simp, hmG, ?_, ?_, fun _ => rfl⟩
      · intro m hm
        simpa using hmE m hm
      · intro k hk hobj hfail
        simpa using heE k hk hobj hfail
      · intro k s hk hv hs
        simpa using hdE k s hk hv hs
    | true =>
      rw [htog] at hok
      rw [if_pos rfl] at hok
      rcases imageFilesCheckAll_spec env.existsAt drinks ⟨esE.isEmpty, esE, wsE⟩ with ⟨e, herrF⟩ | ⟨esF, hF, hmF⟩
      · rw [herrF] at hok
        simp at hok
      · rw [hF] at hok
        dsimp only at hok
        obtain ⟨esG, hG, hmG⟩ := flagsCheck_spec env.flags ⟨esE.isEmpty && esF.isEmpty, esE ++ esF, wsE⟩
        rw [hG] at hok
        simp only [Except.ok.injEq] at hok
        subst hok
        refine ⟨esE, esF, esG, by simp, by simp [Bool.and_assoc], ?_, hmF, hmG, ?_, ?_, ?_⟩
        · intro m hm
          simpa using hmE m hm
        · intro k hk hobj hfail
          simpa using heE k hk hobj hfail
        · intro k s hk hv hs
          simpa using hdE k s hk hv hs
        · intro hne
          exact absurd (by simpa using htog) hne

theorem digitChar_isDigit (n : Nat) (h : n < 10) : (digitChar n).isDigit = true := by
  interval_cases n <;> decide

theorem digitChar_toNat (n : Nat) (h : n < 10) : (digitChar n).toNat = 48 + n := by
  interval_cases n <;> decide

theorem natDigsAux_digits : ∀ fuel n, ∀ c ∈ natDigsAux fuel n, c.isDigit = true := by
  intro fuel
  induction fuel with
  | zero =>
    intro n c hc
    simp [natDigsAux] at hc
  | succ f ih =>
    intro n c hc
    unfold natDigsAux at hc
    by_cases h10 : n < 10
    · rw [if_pos h10] at hc
      rcases List.mem_singleton.mp hc with rfl
      exact digitChar_isDigit n h10
    · rw [if_neg h10] at hc
      rcases List.mem_append.mp hc with hc | hc
      · exact ih _ c hc
      · rcases List.mem_singleton.mp hc with rfl
        exact digitChar_isDigit _ (Nat.mod_lt n (by omega))

theorem natStr_data_digits (n : Nat) : ∀ c ∈ (natStr n).data, c.isDigit = true := by
  intro c hc
  exact natDigsAux_digits (n + 1) n c hc

theorem digsVal_append_digit (cs : List Char) (c : Char) :
    digsVal (cs ++ [c]) = digsVal cs * 10 + (c.toNat - 48) := by
  simp [digsVal, List.foldl_append]

theorem natDigsAux_val : ∀ fuel n, n < fuel → digsVal (natDigsAux fuel n) = n := by
  intro fuel
  induction fuel with
  | zero =>
    intro n h
    omega
  | succ f ih =>
    intro n h
    unfold natDigsAux
    by_cases h10 : n < 10
    · rw [if_pos h10]
      simp [digsVal, digitChar_toNat n h10]
    · rw [if_neg h10]
      rw [digsVal_append_digit]
      rw [ih (n / 10) (by
        have := Nat.div_lt_self (by omega : 0 < n) (by omega : 1 < 10)
        omega)]
      rw [digitChar_toNat (n % 10) (Nat.mod_lt n (by omega))]
      omega

theorem natStr_inj (a b : Nat) (h : natStr a = natStr b) : a = b := by
  have h2 : natDigs a = natDigs b := by
    simpa [natStr, String.ext_iff] using h
  have ha := natDigsAux_val (a + 1) a (by omega)
  have hb := natDigsAux_val (b + 1) b (by omega)
  unfold natDigs at h2
  rw [h2] at ha
  omega

theorem digits_split : ∀ (xs us ys vs : List Char),
    (∀ c ∈ xs, c.isDigit = true) → (∀ c ∈ ys, c.isDigit = true) →
    (∀ c, us.head? = some c → c.isDigit = false) → (∀ c, vs.head? = some c → c.isDigit = false) →
    xs ++ us = ys ++ vs → xs = ys ∧ us = vs := by
  intro xs
  induction xs with
  | nil =>
    intro us ys vs _ hy hu _ h
    cases ys with
    | nil => exact ⟨rfl, h⟩
    | cons b bs =>
      simp only [List.nil_append, List.cons_append] at h
      have hb := hy b (by simp)
      have hh := hu b (by rw [h]; rfl)
      rw [hb] at hh
      cases hh
  | cons a asx ih =>
    intro us ys vs hx hy hu hv h
    cases ys with
    | nil =>
      simp only [List.nil_append, List.cons_append] at h
      have ha := hx a (by simp)
      have hh := hv a (by rw [← h]; rfl)
      rw [ha] at hh
      cases hh
    | cons b bs =>
      simp only [List.cons_append, List.cons.injEq] at h
      obtain ⟨rfl, h2⟩ := h
      obtain ⟨h3, h4⟩ := ih us bs vs (fun c hc => hx c (by simp [hc]))
        (fun c hc => hy c (by simp [hc])) hu hv h2
      exact ⟨by rw [h3], h4⟩

theorem natStr_ne_nil (n : Nat) : (natStr n).data ≠ [] := by
  unfold natStr natDigs
  unfold natDigsAux
  by_cases h10 : n < 10
  · rw [if_pos h10]
    simp
  · rw [if_neg h10]
    simp

theorem idxLabel_split (j k : Nat) (u v : String)
    (hu : ∀ c, u.data.head? = some c → c.isDigit = false)
    (hv : ∀ c, v.data.head? = some c → c.isDigit = false)
    (h : idxLabel j ++ u = idxLabel k ++ v) : j = k ∧ u = v := by
  have hd : ("Drink at index " : String).data ++ ((natStr j).data ++ u.data) =
      ("Drink at index " : String).data ++ ((natStr k).data ++ v.data) := by
    have h2 := congrArg String.data h
    simpa [idxLabel, String.data_append, List.append_assoc] using h2
  have hd2 := List.append_cancel_left hd
  obtain ⟨h3, h4⟩ := digits_split (natStr j).data u.data (natStr k).data v.data
    (natStr_data_digits j) (natStr_data_digits k) hu hv hd2
  exact ⟨natStr_inj j k (String.ext h3), String.ext h4⟩

theorem head?_lit_append (L X : String) (c : Char) (h : L.data.head? = some c) :
    (L ++ X).data.head? = some c := by
  rw [String.data_append, List.head?_append, h]
  rfl

theorem head_nondigit_of (t : String) (c : Char) (ht : t.data.head? = some c)
    (hc : c.isDigit = false) : ∀ c', t.data.head? = some c' → c'.isDigit = false := by
  intro c' h
  rw [ht] at h
  cases h
  exact hc

theorem str_ne_of_head (t1 t2 : String) (c1 c2 : Char) (h1 : t1.data.head? = some c1)
    (h2 : t2.data.head? = some c2) (hne : c1 ≠ c2) : t1 ≠ t2 := by
  intro h
  rw [h, h2] at h1
  cases h1
  exact hne rfl

theorem str_ne_of_index (t1 t2 : String) (i : Nat) (c1 c2 : Char) (h1 : t1.data[i]? = some c1)
    (h2 : t2.data[i]? = some c2) (hne : c1 ≠ c2) : t1 ≠ t2 := by
  intro h
  rw [h, h2] at h1
  cases h1
  exact hne rfl

theorem dupMsg_eq (j : Nat) (s : String) :
    dupMsg j s = idxLabel j ++ (": duplicate id \"" ++ (s ++ "\"")) := by
  simp [dupMsg, String.append_assoc]

theorem snakeMsg_eq (j : Nat) (s : String) :
    snakeMsg j s = idxLabel j ++ (": id \"" ++
      (s ++ "\" must be in snake_case format (lowercase letters, numbers, and underscores only)")) := by
  simp [snakeMsg, String.append_assoc]

theorem idxLabel_head (j : Nat) : (idxLabel j).data.head? = some 'D' := by
  unfold idxLabel
  exact head?_lit_append "Drink at index " (natStr j) 'D' (by decide)

theorem dupMsg_head (j : Nat) (s : String) : (dupMsg j s).data.head? = some 'D' := by
  rw [dupMsg_eq]
  exact head?_lit_append (idxLabel j) _ 'D' (idxLabel_head j)

theorem index2_lit_append (L X : String) (c : Char) (hlen : 2 < L.data.length)
    (h : L.data[2]? = some c) : (L ++ X).data[2]? = some c := by
  rw [String.data_append, List.getElem?_append_left hlen]
  exact h

theorem dupMsg_entry_cases (j : Nat) (s : String) (k : Nat) (seen : List String) (d : JVal)
    (hE : EntryMsg k seen d (dupMsg j s)) :
    j = k ∧ jsGet d "id" = some (JVal.str s) ∧
      idCheckFails (jsGet d "id") = false ∧ s ∈ seen := by
  have hdupTail : ∀ c, ((": duplicate id \"" ++ (s ++ "\"")) : String).data.head? = some c →
      c.isDigit = false :=
    head_nondigit_of _ ':' (head?_lit_append ": duplicate id \"" _ ':' (by decide)) (by decide)
  rcases hE with h | h | ⟨s2, h, hid, hfail, hseen⟩ | ⟨s2, h⟩ | ⟨u, h⟩
  · exfalso
    rw [dupMsg_eq j s, show objMsg k = idxLabel k ++ ": must be an object" from rfl] at h
    obtain ⟨_, h2⟩ := idxLabel_split j k _ _ hdupTail
      (head_nondigit_of _ ':' (by decide) (by decide)) h
    exact str_ne_of_index _ _ 2 'd' 'm'
      (index2_lit_append ": duplicate id \"" _ 'd' (by decide) (by decide)) (by decide) (by decide) h2
  · exfalso
    rw [dupMsg_eq j s, show idErrMsg k = idxLabel k ++ ": id must be a non-empty string" from rfl] at h
    obtain ⟨_, h2⟩ := idxLabel_split j k _ _ hdupTail
      (head_nondigit_of _ ':' (by decide) (by decide)) h
    exact str_ne_of_index _ _ 2 'd' 'i'
      (index2_lit_append ": duplicate id \"" _ 'd' (by decide) (by decide)) (by decide) (by decide) h2
  · have h0 : dupMsg j s = dupMsg k s2 := h ▸ rfl
    rw [dupMsg_eq j s, dupMsg_eq k s2] at h0
    have hdupTail2 : ∀ c, ((": duplicate id \"" ++ (s2 ++ "\"")) : String).data.head? = some c →
        c.isDigit = false :=
      head_nondigit_of _ ':' (head?_lit_append ": duplicate id \"" _ ':' (by decide)) (by decide)
    obtain ⟨rfl, h2⟩ := idxLabel_split j k _ _ hdupTail hdupTail2 h0
    have h3 : s = s2 := by
      have h4 := congrArg String.data h2
      simp only [String.data_append] at h4
      have h5 := List.append_cancel_left h4
      have h6 := List.append_cancel_right h5
      exact String.ext h6
    subst h3
    exact ⟨rfl, hid, hfail, hseen⟩
  · exfalso
    rw [dupMsg_eq j s, snakeMsg_eq k s2] at h
    obtain ⟨_, h2⟩ := idxLabel_split j k _ _ hdupTail
      (head_nondigit_of _ ':' (head?_lit_append ": id \"" _ ':' (by decide)) (by decide)) h
    exact str_ne_of_index _ _ 2 'd' 'i'
      (index2_lit_append ": duplicate id \"" _ 'd' (by decide) (by decide))
      (index2_lit_append ": id \"" _ 'i' (by decide) (by decide)) (by decide) h2
  · exfalso
    rw [dupMsg_eq j s, show idxLabel k ++ " " ++ u = idxLabel k ++ (" " ++ u) from
      String.append_assoc _ _ _] at h
    obtain ⟨_, h2⟩ := idxLabel_split j k _ _ hdupTail
      (head_nondigit_of _ ' ' (head?_lit_append " " _ ' ' (by decide)) (by decide)) h
    exact str_ne_of_head _ _ ':' ' '
      (head?_lit_append ": duplicate id \"" _ ':' (by decide))
      (head?_lit_append " " _ ' ' (by decide)) (by decide) h2

theorem dupMsg_not_image (j : Nat) (s : String) (t : String) : dupMsg j s ≠ "Image " ++ t := by
  exact str_ne_of_head _ _ 'D' 'I' (dupMsg_head j s)
    (head?_lit_append "Image " t 'I' (by decide)) (by decide)

theorem dupMsg_not_flag (j : Nat) (s : String) (m : String) (hf : FlagMsg m) : dupMsg j s ≠ m := by
  rcases hf with rfl | rfl | rfl | ⟨t, rfl⟩
  · exact str_ne_of_head _ _ 'D' 'f' (dupMsg_head j s) (by decide) (by decide)
  · exact str_ne_of_head _ _ 'D' 'f' (dupMsg_head j s) (by decide) (by decide)
  · exact str_ne_of_head _ _ 'D' 'f' (dupMsg_head j s) (by decide) (by decide)
  · exact str_ne_of_head _ _ 'D' 'F' (dupMsg_head j s)
      (head?_lit_append "Failed to parse flags.json: " t 'F' (by decide)) (by decide)

theorem dupMsg_mem_errors (env : Env) (drinks : List JVal) (r : ValidationResult) (j : Nat) (s : String)
    (hcat : env.catalog = some (Except.ok (JVal.arr drinks)))
    (hok : validateCatalog env = Except.ok r)
    (hm : dupMsg j s ∈ r.errors) :
    j < drinks.length ∧ jsGet (drinks.getD j JVal.null) "id" = some (JVal.str s) ∧
      idCheckFails (jsGet (drinks.getD j JVal.null) "id") = false ∧
      s ∈ seenFoldFrom [] (drinks.take j) := by
  obtain ⟨esE, esF, esG, herr, _, hmE, hmF, hmG, _, _, _⟩ := validateCatalog_arr_spec env drinks r hcat hok
  rw [herr] at hm
  rcases List.mem_append.mp hm with hm | hm
  swap
  · exact absurd rfl (dupMsg_not_flag j s _ (hmG _ hm))
  rcases List.mem_append.mp hm with hm | hm
  swap
  · obtain ⟨t, ht⟩ := hmF _ hm
    exact absurd ht (dupMsg_not_image j s t)
  · obtain ⟨k, hk, hE⟩ := hmE _ hm
    obtain ⟨rfl, h1, h2, h3⟩ := dupMsg_entry_cases j s k _ _ hE
    exact ⟨hk, h1, h2, h3⟩

theorem mem_seenStep (s : String) (seen : List String) (d : JVal) :
    s ∈ seenStep seen d ↔ s ∈ seen ∨ validIdOf d = some s := by
  unfold seenStep
  rcases hv : validIdOf d with _ | t
  · simp
  · dsimp only
    cases hc : seen.contains t with
    | true =>
      rw [if_pos rfl]
      constructor
      · intro h
        exact Or.inl h
      · intro h
        rcases h with h | h
        · exact h
        · obtain rfl : t = s := by simpa using h
          exact List.elem_iff.mp hc
    | false =>
      rw [if_neg (by simp)]
      rw [List.mem_append]
      constructor
      · intro h
        rcases h with h | h
        · exact Or.inl h
        · rcases List.mem_singleton.mp h with rfl
          exact Or.inr rfl
      · intro h
        rcases h with h | h
        · exact Or.inl h
        · obtain rfl : t = s := by simpa using h
          exact Or.inr (List.mem_singleton.mpr rfl)

theorem mem_seenFoldFrom (s : String) : ∀ (ds : List JVal) (seen : List String),
    s ∈ seenFoldFrom seen ds ↔
      s ∈ seen ∨ ∃ k, k < ds.length ∧ validIdOf (ds.getD k JVal.null) = some s := by
  intro ds
  induction ds with
  | nil =>
    intro seen
    simp [seenFoldFrom_nil]
  | cons d rest ih =>
    intro seen
    rw [seenFoldFrom_cons, ih, mem_seenStep]
    constructor
    · intro h
      rcases h with (h | h) | ⟨k, hk, hv⟩
      · exact Or.inl h
      · exact Or.inr ⟨0, by simp, by simpa using h⟩
      · exact Or.inr ⟨k + 1, by simpa using hk, by simpa using hv⟩
    · intro h
      rcases h with h | ⟨k, hk, hv⟩
      · exact Or.inl (Or.inl h)
      · cases k with
        | zero => exact Or.inl (Or.inr (by simpa using hv))
        | succ k => exact Or.inr ⟨k, by simpa using hk, by simpa using hv⟩

theorem mem_seenFold_take (drinks : List JVal) (j : Nat) (hj : j ≤ drinks.length) (s : String) :
    s ∈ seenFoldFrom [] (drinks.take j) ↔
      ∃ i, i < j ∧ validIdOf (drinks.getD i JVal.null) = some s := by
  rw [mem_seenFoldFrom]
  simp only [List.not_mem_nil, false_or, List.length_take]
  constructor
  · intro ⟨k, hk, hv⟩
    refine ⟨k, by omega, ?_⟩
    rw [List.getD_eq_getElem?_getD, ← List.getElem?_take_of_lt (by omega : k < j),
      ← List.getD_eq_getElem?_getD]
    exact hv
  · intro ⟨i, hi, hv⟩
    refine ⟨i, by omega, ?_⟩
    rw [List.getD_eq_getElem?_getD, List.getElem?_take_of_lt (by omega : i < j),
      ← List.getD_eq_getElem?_getD]
    exact hv

theorem entryMsg_head (k : Nat) (seen : List String) (d : JVal) (m : String)
    (h : EntryMsg k seen d m) : m.data.head? = some 'D' := by
  rcases h with rfl | rfl | ⟨s, rfl, _, _, _⟩ | ⟨s, rfl⟩ | ⟨t, rfl⟩
  · exact head?_lit_append (idxLabel k) _ 'D' (idxLabel_head k)
  · exact head?_lit_append (idxLabel k) _ 'D' (idxLabel_head k)
  · exact dupMsg_head k s
  · rw [snakeMsg_eq]
    exact head?_lit_append (idxLabel k) _ 'D' (idxLabel_head k)
  · rw [String.append_assoc]
    exact head?_lit_append (idxLabel k) _ 'D' (idxLabel_head k)

theorem flagMsg_head (m : String) (h : FlagMsg m) :
    m.data.head? = some 'f' ∨ m.data.head? = some 'F' := by
  rcases h with rfl | rfl | rfl | ⟨t, rfl⟩
  · exact Or.inl (by decide)
  · exact Or.inl (by decide)
  · exact Or.inl (by decide)
  · exact Or.inr (head?_lit_append "Failed to parse flags.json: " t 'F' (by decide))

theorem validateCatalog_no_file (env : Env) (h : env.catalog = none) :
    validateCatalog env = Except.ok ⟨false, ["drinks.json file not found"], []⟩ := by
  unfold validateCatalog
  rw [h]
  rfl

theorem validateCatalog_parse_fail (env : Env) (m : String) (h : env.catalog = some (Except.error m)) :
    validateCatalog env = Except.ok ⟨false, ["Failed to parse drinks.json: " ++ m], []⟩ := by
  unfold validateCatalog
  rw [h]
  rfl

/-- C1: for every catalog content, flags content and toggle setting, whenever
`validateCatalog` returns a result record, its success flag is true exactly
when its error list is empty; the warning list plays no part in it. -/
theorem c1_success_iff_no_errors (env : Env) (r : ValidationResult)
    (hok : validateCatalog env = Except.ok r) :
    r.success = true ↔ r.errors = [] := by
  rcases hcat : env.catalog with _ | ce
  · rw [validateCatalog_no_file env hcat] at hok
    simp only [Except.ok.injEq] at hok
    subst hok
    simp
  · rcases ce with m | cv
    · rw [validateCatalog_parse_fail env m hcat] at hok
      simp only [Except.ok.injEq] at hok
      subst hok
      simp
    · cases cv with
      | arr drinks =>
        obtain ⟨esE, esF, esG, herr, hsucc, _, _, _, _, _, _⟩ :=
          validateCatalog_arr_spec env drinks r hcat hok
        rw [hsucc, herr]
        simp only [Bool.and_eq_true, List.isEmpty_iff, List.append_eq_nil]
        tauto
      | null =>
        unfold validateCatalog at hok
        rw [hcat] at hok
        simp only [Except.ok.injEq] at hok
        subst hok
        simp [pushError]
      | bool b =>
        unfold validateCatalog at hok
        rw [hcat] at hok
        simp only [Except.ok.injEq] at hok
        subst hok
        simp [pushError]
      | num q =>
        unfold validateCatalog at hok
        rw [hcat] at hok
        simp only [Except.ok.injEq] at hok
        subst hok
        simp [pushError]
      | str s =>
        unfold validateCatalog at hok
        rw [hcat] at hok
        simp only [Except.ok.injEq] at hok
        subst hok
        simp [pushError]
      | obj fs =>
        unfold validateCatalog at hok
        rw [hcat] at hok
        simp only [Except.ok.injEq] at hok
        subst hok
        simp [pushError]

theorem c1_witness :
    ((⟨true, [], []⟩ : ValidationResult).success = true ↔
      (⟨true, [], []⟩ : ValidationResult).errors = []) :=
  c1_success_iff_no_errors (envOf (JVal.arr [])) ⟨true, [], []⟩ (by decide)

/-- C3 (failing input for the propagation-policy claim): on a catalog whose
only entry has a well-formed imageVariants object but no imagePath, the
embedded `validateCatalog` throws (models the TypeError that
`path.extname(undefined)` raises at line 168 and that escapes the function)
instead of recording a structured error. -/
theorem c3_missing_imagepath_throws :
    validateCatalog (envOf (JVal.arr [noImagePathEntry])) = Except.error pathTypeErr := by
  decide

/-- C9: the margarita entry with matching sm/md variant paths yields no
warning and no error; renaming the sm variant yields exactly one warning
(and no error) naming the expected path derived from the imagePath
basename. -/
theorem c9_variant_path_warnings :
    validateCatalog (envOf (JVal.arr [margaritaEntry])) = Except.ok ⟨true, [], []⟩ ∧
    validateCatalog (envOf (JVal.arr [margaritaBadSm])) = Except.ok
      ⟨true, [],
       ["Drink at index 0 (margarita): sm path should be drinks/_thumbs/margarita_512.png"]⟩ := by
  exact ⟨by decide, by decide⟩

/-- C5: on any returned result, for an entry at index `j` whose id passes the
non-empty-string check with value `s`, a duplicate-id error for index `j` is
reported exactly when some earlier entry also passed the id check with the
same value; in particular the first occurrence is never flagged. -/
theorem c5_duplicate_id_reporting (env : Env) (drinks : List JVal) (r : ValidationResult)
    (j : Nat) (s : String)
    (hcat : env.catalog = some (Except.ok (JVal.arr drinks)))
    (hok : validateCatalog env = Except.ok r)
    (hj : j < drinks.length)
    (hid : validIdOf (drinks.getD j JVal.null) = some s) :
    dupMsg j s ∈ r.errors ↔ ∃ i, i < j ∧ validIdOf (drinks.getD i JVal.null) = some s := by
  constructor
  · intro hm
    obtain ⟨_, _, _, hseen⟩ := dupMsg_mem_errors env drinks r j s hcat hok hm
    exact (mem_seenFold_take drinks j (by omega) s).mp hseen
  · intro ⟨i, hi, hvi⟩
    obtain ⟨esE, esF, esG, herr, _, _, _, _, _, hdup, _⟩ :=
      validateCatalog_arr_spec env drinks r hcat hok
    have hseen : s ∈ seenFoldFrom [] (drinks.take j) :=
      (mem_seenFold_take drinks j (by omega) s).mpr ⟨i, hi, hvi⟩
    have hmem := hdup j s hj hid hseen
    rw [herr]
    exact List.mem_append.mpr (Or.inl (List.mem_append.mpr (Or.inl hmem)))

theorem c5_witness :
    (dupMsg 1 "a" ∈ (ValidationResult.mk false ["Drink at index 1: duplicate id \"a\""] []).errors ↔
      ∃ i, i < 1 ∧ validIdOf (([plainEntry "a", plainEntry "a"] : List JVal).getD i JVal.null) = some "a") :=
  c5_duplicate_id_reporting (envOf (JVal.arr [plainEntry "a", plainEntry "a"]))
    [plainEntry "a", plainEntry "a"]
    ⟨false, ["Drink at index 1: duplicate id \"a\""], []⟩ 1 "a" rfl (by decide) (by decide) (by decide)

/-- C10: an entry at index `j` that is an object but whose id fails the
non-empty-string check always receives the id error and is never reported as
a duplicate, because its id is not added to (or compared against) the
duplicate-detection set. -/
theorem c10_invalid_ids_never_duplicates (env : Env) (drinks : List JVal) (r : ValidationResult)
    (j : Nat)
    (hcat : env.catalog = some (Except.ok (JVal.arr drinks)))
    (hok : validateCatalog env = Except.ok r)
    (hj : j < drinks.length)
    (hobj : objTyped (drinks.getD j JVal.null) = true)
    (hfail : idCheckFails (jsGet (drinks.getD j JVal.null) "id") = true) :
    idErrMsg j ∈ r.errors ∧ ∀ s, dupMsg j s ∉ r.errors := by
  obtain ⟨esE, esF, esG, herr, _, _, _, _, hIdErr, _, _⟩ :=
    validateCatalog_arr_spec env drinks r hcat hok
  constructor
  · rw [herr]
    exact List.mem_append.mpr (Or.inl (List.mem_append.mpr (Or.inl (hIdErr j hj hobj hfail))))
  · intro s hm
    obtain ⟨_, _, h2, _⟩ := dupMsg_mem_errors env drinks r j s hcat hok hm
    rw [h2] at hfail
    cases hfail

theorem c10_witness :
    idErrMsg 0 ∈ (ValidationResult.mk false [idErrMsg 0, idErrMsg 1] []).errors ∧
    dupMsg 0 "x" ∉ (ValidationResult.mk false [idErrMsg 0, idErrMsg 1] []).errors :=
  ⟨(c10_invalid_ids_never_duplicates (envOf (JVal.arr [noIdEntry, noIdEntry]))
      [noIdEntry, noIdEntry] ⟨false, [idErrMsg 0, idErrMsg 1], []⟩ 0 rfl (by decide) (by decide)
      (by decide) (by decide)).1,
   (c10_invalid_ids_never_duplicates (envOf (JVal.arr [noIdEntry, noIdEntry]))
      [noIdEntry, noIdEntry] ⟨false, [idErrMsg 0, idErrMsg 1], []⟩ 0 rfl (by decide) (by decide)
      (by decide) (by decide)).2 "x"⟩

theorem no_image_msgs_toggle_off (env : Env) (r : ValidationResult)
    (ht : env.validateImageFiles ≠ some "true")
    (hok : validateCatalog env = Except.ok r) :
    ∀ m ∈ r.errors, m.data.head? ≠ some 'I' := by
  intro m hm
  rcases hcat : env.catalog with _ | ce
  · rw [validateCatalog_no_file env hcat] at hok
    simp only [Except.ok.injEq] at hok
    subst hok
    simp only [List.mem_singleton] at hm
    subst hm
    decide
  · rcases ce with pm | cv
    · rw [validateCatalog_parse_fail env pm hcat] at hok
      simp only [Except.ok.injEq] at hok
      subst hok
      simp only [List.mem_singleton] at hm
      subst hm
      rw [head?_lit_append "Failed to parse drinks.json: " pm 'F' (by decide)]
      decide
    · cases cv with
      | arr drinks =>
        obtain ⟨esE, esF, esG, herr, _, hmE, _, hmG, _, _, hFnil⟩ :=
          validateCatalog_arr_spec env drinks r hcat hok
        rw [hFnil ht] at herr
        rw [herr] at hm
        rcases List.mem_append.mp hm with hm | hm
        · rcases List.mem_append.mp hm with hm | hm
          · obtain ⟨k, _, hE⟩ := hmE m hm
            rw [entryMsg_head k _ _ m hE]
            decide
          · simp at hm
        · rcases flagMsg_head m (hmG m hm) with h | h <;> rw [h] <;> decide
      | null =>
        unfold validateCatalog at hok
        rw [hcat] at hok
        simp only [Except.ok.injEq] at hok
        subst hok
        simp only [pushError, List.nil_append, List.mem_singleton] at hm
        subst hm
        decide
      | bool b =>
        unfold validateCatalog at hok
        rw [hcat] at hok
        simp only [Except.ok.injEq] at hok
        subst hok
        simp only [pushError, List.nil_append, List.mem_singleton] at hm
        subst hm
        decide
      | num q =>
        unfold validateCatalog at hok
        rw [hcat] at hok
        simp only [Except.ok.injEq] at hok
        subst hok
        simp only [pushError, List.nil_append, List.mem_singleton] at hm
        subst hm
        decide
      | str s =>
        unfold validateCatalog at hok
        rw [hcat] at hok
        simp only [Except.ok.injEq] at hok
        subst hok
        simp only [pushError, List.nil_append, List.mem_singleton] at hm
        subst hm
        decide
      | obj fs =>
        unfold validateCatalog at hok
        rw [hcat] at hok
        simp only [Except.ok.injEq] at hok
        subst hok
        simp only [pushError, List.nil_append, List.mem_singleton] at hm
        subst hm
        decide

/-- C6: when VALIDATE_IMAGE_FILES is anything other than the exact string
"true", the result of `validateCatalog` does not depend on the filesystem
oracle at all (two environments equal except for `existsAt` give identical
results), and no file-not-found error ever appears in the error list. -/
theorem c6_toggle_off_fs_independent (env env2 : Env)
    (hc : env2.catalog = env.catalog) (hf : env2.flags = env.flags)
    (hv : env2.validateImageFiles = env.validateImageFiles)
    (ht : env.validateImageFiles ≠ some "true") :
    validateCatalog env2 = validateCatalog env ∧
    (∀ r, validateCatalog env = Except.ok r → ∀ p idt vname,
      imageNotFoundMsg p idt ∉ r.errors ∧ variantNotFoundMsg p vname idt ∉ r.errors) := by
  have htog : (env.validateImageFiles == some "true") = false := by
    simpa using ht
  constructor
  · unfold validateCatalog
    rw [hc, hf, hv, htog]
    rfl
  · intro r hok p idt vname
    have hno := no_image_msgs_toggle_off env r ht hok
    constructor
    · intro hm
      obtain ⟨t, hsh⟩ := imageNotFoundMsg_shape p idt
      refine hno _ hm ?_
      rw [hsh]
      exact head?_lit_append "Image " t 'I' (by decide)
    · intro hm
      obtain ⟨t, hsh⟩ := variantNotFoundMsg_shape p vname idt
      refine hno _ hm ?_
      rw [hsh]
      exact head?_lit_append "Image " t 'I' (by decide)

theorem c6_witness :
    validateCatalog ⟨some (Except.ok (JVal.arr [])), none, none, fun _ => true⟩ =
      validateCatalog (envOf (JVal.arr [])) :=
  (c6_toggle_off_fs_independent (envOf (JVal.arr []))
    ⟨some (Except.ok (JVal.arr [])), none, none, fun _ => true⟩ rfl rfl rfl (by decide)).1

/-- C2 (counterexample to the claim as stated): an otherwise fully valid
entry with `modifiersSupported: true` receives the modifiersSupported type
error, so a boolean value is not accepted. -/
theorem c2_counterexample :
    validateCatalog (envOf (JVal.arr [margaritaModTrue])) = Except.ok
      ⟨false,
       ["Drink at index 0 (margarita): modifiersSupported must be an array of strings if provided"],
       []⟩ := by
  decide

/-- C2 (amended): the modifiersSupported check leaves the result unchanged
exactly when the field is falsy (absent, false, 0 or the empty string) or is
an array of strings; otherwise, including for the boolean true, it pushes
the modifiersSupported type error. -/
theorem c2_modifiers_amended (k : Nat) (d : JVal) (r : ValidationResult) :
    (checkModifiers k d r = r ↔
      (truthyO (jsGet d "modifiersSupported") = false ∨
        isStringArrayO (jsGet d "modifiersSupported") = true)) ∧
    (checkModifiers k d r = r ∨
      checkModifiers k d r =
        pushError r (labeledMsg k d "modifiersSupported must be an array of strings if provided")) := by
  rw [checkModifiers_eq]
  cases h1 : truthyO (jsGet d "modifiersSupported") with
  | false =>
    refine ⟨?_, Or.inl ?_⟩ <;> simp
  | true =>
    cases h2 : isStringArrayO (jsGet d "modifiersSupported") with
    | true =>
      refine ⟨?_, Or.inl ?_⟩ <;> simp
    | false =>
      rw [if_pos (by decide)]
      refine ⟨?_, Or.inr rfl⟩
      constructor
      · intro h
        exact absurd h (pushError_ne r _)
      · intro h
        rcases h with h | h <;> cases h

/-- C4 (counterexample to the claim as stated): a catalog element that is a
JSON array is typeof object in JavaScript, so it does not get the
`must be an object` error; instead all the per-field rules run on it. -/
theorem c4_counterexample :
    validateCatalog (envOf (JVal.arr [JVal.arr []])) = Except.ok ⟨false, c4errors, []⟩ ∧
    "Drink at index 0: must be an object" ∉ c4errors ∧
    "Drink at index 0: id must be a non-empty string" ∈ c4errors := by
  refine ⟨by decide, by decide, by decide⟩

/-- C4 (amended): for an element that is not a non-null object in the
JavaScript sense (null, a string, a number or a boolean; arrays count as
objects), the entry processing pushes exactly the `must be an object` error,
applies no per-field rule and leaves the duplicate-id set unchanged. -/
theorem c4_non_object_amended (k : Nat) (st : ValidationResult × List String) (d : JVal)
    (h : objTyped d = false) :
    validateDrink k d st = Except.ok (pushError st.1 (objMsg k), st.2) := by
  obtain ⟨r, seen⟩ := st
  unfold validateDrink
  rw [if_pos (by simp [h])]

theorem c4_witness :
    objTyped (JVal.str "margarita") = false ∧
    validateDrink 0 (JVal.str "margarita") (⟨true, [], []⟩, []) =
      Except.ok (pushError ⟨true, [], []⟩ (objMsg 0), []) :=
  ⟨by decide, c4_non_object_amended 0 (⟨true, [], []⟩, []) (JVal.str "margarita") (by decide)⟩

theorem isSnakeCase_false_of_bad (s : String)
    (hbad : ∃ c, c ∈ s.data ∧ (('A' ≤ c ∧ c ≤ 'Z') ∨ c = ' ' ∨ c = '-')) :
    isSnakeCase s = false := by
  obtain ⟨c, hc, hkind⟩ := hbad
  unfold isSnakeCase
  have hp : (('a' ≤ c && c ≤ 'z') || ('0' ≤ c && c ≤ '9') || c == '_') = false := by
    rcases hkind with ⟨hA, hZ⟩ | rfl | rfl
    · have h1 : ¬('a' ≤ c) := fun hle => absurd (le_trans hle hZ) (by decide)
      have h2 : ¬(c ≤ '9') := fun hle => absurd (le_trans hA hle) (by decide)
      have h3 : ¬(c = '_') := fun he => absurd (he ▸ hZ) (by decide)
      simp [h1, h2, h3]
    · decide
    · decide
  have hall : s.data.all (fun c => ('a' ≤ c && c ≤ 'z') || ('0' ≤ c && c ≤ '9') || c == '_') = false :=
    List.all_eq_false.mpr ⟨c, hc, by simp [hp]⟩
  rw [hall]
  simp

/-- C7 (counterexample to the claim as stated): the id consisting of a
single space is a non-empty string containing a space, yet no snake_case
format error is reported for it; it fails the non-empty-string check
instead (trim removes the space), which skips the format check. -/
theorem c7_counterexample :
    validateCatalog (envOf (JVal.arr [blankIdEntry])) = Except.ok ⟨false, [idErrMsg 0], []⟩ ∧
    snakeMsg 0 " " ∉ [idErrMsg 0] := by
  refine ⟨by decide, by decide⟩

/-- C7 (amended): for an entry whose id is a string with non-blank content
(non-empty after trimming) that contains an ASCII uppercase letter, a space
or a hyphen, the id check reports the snake_case format error; the id
"my_drink_1" passes the format test and "My-Drink" fails it. -/
theorem c7_snake_case_amended (k : Nat) (r : ValidationResult) (seen : List String)
    (d : JVal) (s : String)
    (hid : jsGet d "id" = some (JVal.str s))
    (hne : ¬ jsTrim s = "")
    (hbad : ∃ c, c ∈ s.data ∧ (('A' ≤ c ∧ c ≤ 'Z') ∨ c = ' ' ∨ c = '-')) :
    snakeMsg k s ∈ (checkId k d (r, seen)).1.errors ∧
    isSnakeCase "my_drink_1" = true ∧ isSnakeCase "My-Drink" = false := by
  refine ⟨?_, by decide, by decide⟩
  have hsne : ¬ s = "" := by
    intro h
    subst h
    exact hne rfl
  have hfail : idCheckFails (jsGet d "id") = false := by
    rw [hid]
    simp [idCheckFails, truthyO, truthy, jsTypeofO, jsTypeof, hsne, hne]
  have hsnake := isSnakeCase_false_of_bad s hbad
  unfold checkId
  dsimp only
  rw [if_neg (by simp [hfail])]
  have hss : idStrOf (jsGet d "id") = s := by
    rw [hid]
    rfl
  rw [hss]
  rw [if_pos (by simp [hsnake])]
  simp [pushError]

theorem c7_witness :
    snakeMsg 0 "My-Drink" ∈
      (checkId 0 (JVal.obj [("id", JVal.str "My-Drink")]) (⟨true, [], []⟩, [])).1.errors ∧
    isSnakeCase "my_drink_1" = true ∧ isSnakeCase "My-Drink" = false :=
  c7_snake_case_amended 0 ⟨true, [], []⟩ [] (JVal.obj [("id", JVal.str "My-Drink")]) "My-Drink"
    rfl (by decide) ⟨'M', by decide, Or.inl ⟨by decide, by decide⟩⟩

/-- C8: the popularity range check records its error exactly when the number
is below 0 or above 100 (so 0 and 100 produce no range error while -1 and
101 do). -/
theorem c8_popularity_range (k : Nat) (d : JVal) (r : ValidationResult) (q : Rat)
    (h : jsGet d "popularity" = some (JVal.num q)) :
    labeledMsg k d "popularity must be a number between 0 and 100" ∈ (checkPopularity k d r).errors ↔
      (labeledMsg k d "popularity must be a number between 0 and 100" ∈ r.errors ∨
        q < 0 ∨ 100 < q) := by
  unfold checkPopularity
  simp only [h]
  by_cases h1 : q < 0 ∨ 100 < q
  · rw [if_pos (by simpa using h1)]
    simp [pushError, h1]
  · rw [if_neg (by simpa using h1)]
    simp [h1]

theorem c8_witness :
    jsGet popZeroEntry "popularity" = some (JVal.num 0) ∧
    (labeledMsg 0 popZeroEntry "popularity must be a number between 0 and 100" ∈
        (checkPopularity 0 popZeroEntry ⟨true, [], []⟩).errors ↔
      (labeledMsg 0 popZeroEntry "popularity must be a number between 0 and 100" ∈
        (⟨true, [], []⟩ : ValidationResult).errors ∨ (0 : Rat) < 0 ∨ 100 < (0 : Rat))) :=
  ⟨rfl, c8_popularity_range 0 popZeroEntry ⟨true, [], []⟩ 0 rfl⟩
